import Mathlib

/-!
Verification of the TextSnake target-generation core
(`mmocr/datasets/pipelines/textdet_targets/textsnake_targets.py`).

Shallow embedding conventions:
* numpy `float64` values are modelled by real numbers; decimal literals of the
  source (`1e-8`, `0.9`, `0.3`, `4.0`, ...) become the corresponding rationals;
* numpy Euclidean `norm` becomes `Real.sqrt` of the sum of squares;
* Python `int(x)` (truncation towards zero) becomes `pyTrunc`;
* a Python runtime error (out-of-bounds indexing, failed `assert`) makes the
  modelled function return `none`;
* `cv2.fillPoly` is an external collaborator; its pixel coverage is modelled
  from the spec by an even-odd point-in-polygon test on the integer-cast
  vertices, clipped to the image rectangle.  All order/overwrite reasoning is
  independent of the details of that coverage predicate.
-/

namespace TextSnake

/-- The floating-point guard `1e-8` used throughout the source. -/
noncomputable def eps : ℝ := 1 / 100000000

/-- A 2-D point (a row of an `(n, 2)` numpy array). -/
abbrev Pt : Type := ℝ × ℝ

/-- Euclidean norm of a 2-D vector: `numpy.linalg.norm(vec)`. -/
noncomputable def vnorm (v : Pt) : ℝ := Real.sqrt (v.1 ^ 2 + v.2 ^ 2)

/-- `vector_slope`: `abs(vec[1] / (vec[0] + 1e-8))`. -/
noncomputable def vector_slope (v : Pt) : ℝ := |v.2 / (v.1 + eps)|

/-- `vector_sin`: `vec[1] / (norm(vec) + 1e-8)`. -/
noncomputable def vector_sin (v : Pt) : ℝ := v.2 / (vnorm v + eps)

/-- `vector_cos`: `vec[0] / (norm(vec) + 1e-8)`. -/
noncomputable def vector_cos (v : Pt) : ℝ := v.1 / (vnorm v + eps)

/-- Python `int(x)` on a float: truncation towards zero. -/
noncomputable def pyTrunc (x : ℝ) : ℤ := if 0 ≤ x then ⌊x⌋ else ⌈x⌉

/-- `vector_angle` on two single vectors (the `ndim = 1` path):
`arccos(clip(dot(unit_vec1, unit_vec2), -1, 1))` with the `1e-8`
normalisation guard. -/
noncomputable def vector_angle (v1 v2 : Pt) : ℝ :=
  let u1 : Pt := ((vnorm v1 + eps)⁻¹) • v1
  let u2 : Pt := ((vnorm v2 + eps)⁻¹) • v2
  Real.arccos (min 1 (max (-1) (u1.1 * u2.1 + u1.2 * u2.2)))

/-- The edge vectors of the closed polygon: differences of consecutive rows of
`vstack([points, points[0]])`; there are `len(points)` of them. -/
def edgeVectors (pts : List Pt) : List Pt :=
  let pad := pts ++ [pts.headD (0, 0)]
  List.zipWith (fun a b => b - a) pad pad.tail

/-- `theta_sum`: for each edge, the summed angular deviation from its two
cyclically adjacent edges. -/
noncomputable def thetaSumList (pts : List Pt) : List ℝ :=
  let ev := edgeVectors pts
  let n := ev.length
  (List.range n).map fun i =>
    vector_angle (ev.getD i (0, 0)) (ev.getD ((i + n - 1) % n) (0, 0)) +
      vector_angle (ev.getD i (0, 0)) (ev.getD ((i + 1) % n) (0, 0))

open Classical in
/-- Index (within the index list) of the first entry whose `xs`-value is
maximal.  Together with `select` this models `np.argsort(theta_sum)[::-1][0:2]`
(the two indices carrying the largest values; the source's tie order is
unspecified — `np.argsort` uses an unstable quicksort — and is modelled as
first occurrence). -/
noncomputable def bestIdx (xs : List ℝ) : List ℕ → ℕ
  | [] => 0
  | i :: rest =>
    if rest = [] then i
    else
      let k := bestIdx xs rest
      if xs.getD k 0 > xs.getD i 0 then k else i

/-- The positions of the two largest entries of `xs`, largest first. -/
noncomputable def select (xs : List ℝ) : ℕ × ℕ :=
  let i1 := bestIdx xs (List.range xs.length)
  (i1, bestIdx xs ((List.range xs.length).filter fun j => j ≠ i1))

/-- The `len(points) > 4` branch of `find_head_tail`, as a function of the
vertex count `n` and the two bending-score indices `head_start`/`tail_start`
chosen by the argsort.  Mirrors lines 91–103 of the source: the fallback
replacement of `tail_start`, the `+1 (mod n)` edge ends, and the final swap
putting the pairs in ascending order of their end index. -/
def findHeadTailBig (n hs ts : ℕ) : (ℕ × ℕ) × (ℕ × ℕ) :=
  let sep : ℤ := |(hs : ℤ) - (ts : ℤ)|
  let ts' : ℕ := if sep < 2 ∨ 12 < sep then (hs + n / 2) % n else ts
  let he : ℕ := (hs + 1) % n
  let te : ℕ := (ts' + 1) % n
  if te < he then ((ts', te), (hs, he)) else ((hs, he), (ts', te))

/-- The `len(points) == 4` branch of `find_head_tail` (lines 104–131). -/
noncomputable def findHeadTailQuad (pts : List Pt) (orientation_thr : ℝ) :
    (ℕ × ℕ) × (ℕ × ℕ) :=
  let p := fun i => pts.getD i (0, 0)
  let cond :=
    vector_slope (p 1 - p 0) + vector_slope (p 3 - p 2) <
      vector_slope (p 2 - p 1) + vector_slope (p 0 - p 3)
  let horiz : (ℕ × ℕ) × (ℕ × ℕ) := if cond then ((0, 1), (2, 3)) else ((3, 0), (1, 2))
  let vert : (ℕ × ℕ) × (ℕ × ℕ) := if cond then ((3, 0), (1, 2)) else ((0, 1), (2, 3))
  let vertical_len_sum :=
    vnorm (p vert.1.1 - p vert.1.2) + vnorm (p vert.2.1 - p vert.2.2)
  let horizontal_len_sum :=
    vnorm (p horiz.1.1 - p horiz.1.2) + vnorm (p horiz.2.1 - p horiz.2.2)
  if vertical_len_sum > horizontal_len_sum * orientation_thr then horiz else vert

/-- `find_head_tail(points, orientation_thr)`: returns
`(head_inds, tail_inds)` as two index pairs. -/
noncomputable def find_head_tail (pts : List Pt) (orientation_thr : ℝ) :
    (ℕ × ℕ) × (ℕ × ℕ) :=
  if 4 < pts.length then
    let sel := select (thetaSumList pts)
    findHeadTailBig pts.length sel.1 sel.2
  else findHeadTailQuad pts orientation_thr

/-- A Python numeric value, distinguishing `int` from `float`
(for the `isinstance(orientation_thr, float)` precondition). -/
inductive PyVal : Type
  | int : ℤ → PyVal
  | float : ℚ → PyVal
deriving DecidableEq

/-- Whether a `PyVal` is a Python `float`. -/
def PyVal.isFloat : PyVal → Bool
  | .float _ => true
  | .int _ => false

/-- Whether a `PyVal` is numeric (both variants are). -/
def PyVal.isNumeric : PyVal → Bool
  | _ => true

/-- Whether a `PyVal` is positive. -/
def PyVal.isPos : PyVal → Bool
  | .int z => decide (0 < z)
  | .float q => decide (0 < q)

/-- The precondition checks of `find_head_tail` (lines 73–76), as a function
of the numpy shape of `points` and the runtime type of `orientation_thr`:
`points.ndim == 2`, `points.shape[0] >= 4`, `points.shape[1] == 2`,
`isinstance(orientation_thr, float)`. -/
def findHeadTailPre (shape : List ℕ) (thr : PyVal) : Bool :=
  decide (shape.length = 2) && decide (4 ≤ shape.getD 0 0) &&
    decide (shape.getD 1 0 = 2) && thr.isFloat

/-- `np.mean(l, axis=0)` of a list of points. -/
noncomputable def listMean (l : List Pt) : Pt :=
  ((l.map Prod.fst).sum / l.length, (l.map Prod.snd).sum / l.length)

/-- `reorder_poly_edge(points)` (lines 134–174): head edge, tail edge, top
sideline and bottom sideline.  Python slices `pad_points[a:b]` become
`(pad.drop a).take (b - a)`. -/
noncomputable def reorder_poly_edge (orientation_thr : ℝ) (pts : List Pt) :
    List Pt × List Pt × List Pt × List Pt :=
  let r := find_head_tail pts orientation_thr
  let head_edge := [pts.getD r.1.1 (0, 0), pts.getD r.1.2 (0, 0)]
  let tail_edge := [pts.getD r.2.1 (0, 0), pts.getD r.2.2 (0, 0)]
  let pad := pts ++ pts
  let t2 := if r.2.2 < 1 then pts.length else r.2.2
  let s1 := (pad.drop r.1.2).take (t2 - r.1.2)
  let s2 := (pad.drop t2).take (r.1.2 + pts.length - t2)
  let shift := listMean s1 - listMean s2
  if shift.2 > 0 then (head_edge, tail_edge, s2, s1)
  else (head_edge, tail_edge, s1, s2)

/-- The list `length_list` of `resample_line`: Euclidean lengths of the
consecutive segments of the polyline. -/
noncomputable def lengthsOf (line : List Pt) : List ℝ :=
  List.zipWith (fun a b => vnorm (b - a)) line line.tail

/-- `np.cumsum([0.0] + length_list)`: the cumulative arc lengths, one entry
per vertex of the polyline. -/
noncomputable def cumlen (line : List Pt) : List ℝ :=
  List.scanl (· + ·) 0 (lengthsOf line)

/-- `sum(length_list)`: total arc length of the polyline. -/
noncomputable def arclen (line : List Pt) : ℝ := (lengthsOf line).sum

/-- The `while current_line_len >= length_cumsum[current_edge_ind + 1]` loop
of `resample_line`.  Python evaluates the array access first, so running past
the end of `length_cumsum` is an `IndexError`, modelled by `none`. -/
noncomputable def advance (cums : List ℝ) (c : ℝ) (ind : ℕ) : Option ℕ :=
  if _h : ind + 1 < cums.length then
    if cums.getD (ind + 1) 0 ≤ c then advance cums c (ind + 1) else some ind
  else none
termination_by cums.length - ind

/-- The interior-point loop of `resample_line` (`for i in range(1, n)`),
producing the `n - 1` interpolated points; `k` counts the remaining
iterations, `i` is the loop variable and `ind` the persistent
`current_edge_ind`. -/
noncomputable def resampleInterior (line : List Pt) (delta : ℝ) :
    ℕ → ℕ → ℕ → Option (List Pt)
  | 0, _, _ => some []
  | k + 1, i, ind => do
    let c := (i : ℝ) * delta
    let ind' ← advance (cumlen line) c ind
    let shift := c - (cumlen line).getD ind' 0
    let ratio := shift / (lengthsOf line).getD ind' 0
    let p := line.getD ind' (0, 0) +
      ratio • (line.getD (ind' + 1) (0, 0) - line.getD ind' (0, 0))
    let rest ← resampleInterior line delta k (i + 1) ind'
    pure (p :: rest)

/-- `resample_line(line, n)` (lines 176–220).  The leading `if` models the
shape/positivity asserts; the first and last input points are copied
verbatim around the interpolated interior. -/
noncomputable def resample_line (line : List Pt) (n : ℕ) : Option (List Pt) :=
  if 2 ≤ line.length ∧ 1 ≤ n then
    (resampleInterior line (arclen line / ((n : ℝ) + eps)) (n - 1) 1 0).map
      fun mids => line.headD (0, 0) :: (mids ++ [line.getLastD (0, 0)])
  else none

/-- The shared resample point count of `resample_sidelines`:
`max(int(float(total_length) / resample_step), 1)` where `total_length` is
the average of the two arc lengths. -/
noncomputable def resamplePointNum (s1 s2 : List Pt) (resample_step : ℝ) : ℤ :=
  max (pyTrunc (((arclen s1 + arclen s2) / 2) / resample_step)) 1

/-- `resample_sidelines(sideline1, sideline2, resample_step)`
(lines 222–259). -/
noncomputable def resample_sidelines (s1 s2 : List Pt) (resample_step : ℝ) :
    Option (List Pt × List Pt) :=
  if 2 ≤ s1.length ∧ 2 ≤ s2.length then do
    let n := (resamplePointNum s1 s2 resample_step).toNat
    let r1 ← resample_line s1 n
    let r2 ← resample_line s2 n
    pure (r1, r2)
  else none

/-- Whether an integer pixel lies inside the `(h, w)` image rectangle
(`cv2` clips all drawing to the image). -/
def inBounds (hw : ℕ × ℕ) (p : ℤ × ℤ) : Bool :=
  decide (0 ≤ p.1) && decide (p.1 < (hw.2 : ℤ)) &&
    decide (0 ≤ p.2) && decide (p.2 < (hw.1 : ℤ))

/-- One edge-crossing test of the even-odd ray cast used by `inPoly`. -/
def crossing (p a b : ℤ × ℤ) : Bool :=
  (decide (a.2 ≤ p.2) != decide (b.2 ≤ p.2)) &&
    (let d := b.2 - a.2
     let lhs := (p.1 - a.1) * d
     let rhs := (b.1 - a.1) * (p.2 - a.2)
     if 0 < d then decide (lhs < rhs) else decide (rhs < lhs))

/-- Modelled from the spec: the pixel set filled by `cv2.fillPoly` for one
polygonal contour — an even-odd (ray-cast parity) point-in-polygon test on
the integer vertices.  `cv2.fillPoly` is external C++ code; every theorem
about paint order below is independent of the details of this predicate. -/
def inPoly (poly : List (ℤ × ℤ)) (p : ℤ × ℤ) : Bool :=
  decide ((List.countP (fun e => crossing p e.1 e.2) (poly.zip (poly.rotate 1))) % 2 = 1)

/-- One `cv2.fillPoly(map, [poly], color=v)` call: pixels of the polygon that
lie inside the image take the value `v`, all others keep their old value. -/
def paint (hw : ℕ × ℕ) (q : List (ℤ × ℤ)) (v : ℝ) (m : (ℤ × ℤ) → ℝ) :
    (ℤ × ℤ) → ℝ :=
  fun p => if inPoly q p && inBounds hw p then v else m p

/-- One rasterization job of `draw_center_region_maps`: the integer-cast
quad and the three attribute values painted with it (the mask value is the
constant `1`). -/
structure QuadVal : Type where
  quad : List (ℤ × ℤ)
  rad : ℝ
  sinv : ℝ
  cosv : ℝ

/-- The four output maps, as pixel functions. -/
structure Maps4 : Type where
  mask : (ℤ × ℤ) → ℝ
  radius : (ℤ × ℤ) → ℝ
  sinm : (ℤ × ℤ) → ℝ
  cosm : (ℤ × ℤ) → ℝ

/-- The zero-initialised maps (`np.zeros((h, w))`). -/
def zeroMaps : Maps4 := ⟨fun _ => 0, fun _ => 0, fun _ => 0, fun _ => 0⟩

/-- The four `cv2.fillPoly` calls of one loop iteration of
`draw_center_region_maps`. -/
def paintStep (hw : ℕ × ℕ) (M : Maps4) (v : QuadVal) : Maps4 where
  mask := paint hw v.quad 1 M.mask
  radius := paint hw v.quad v.rad M.radius
  sinm := paint hw v.quad v.sinv M.sinm
  cosm := paint hw v.quad v.cosv M.cosm

/-- Sequential rasterization of a list of quads, in list order. -/
def paintList (hw : ℕ × ℕ) (L : List QuadVal) (M : Maps4) : Maps4 :=
  L.foldl (paintStep hw) M

/-- `astype(np.int32)` of one point: C truncation towards zero of each
coordinate. -/
noncomputable def toInt32 (p : Pt) : ℤ × ℤ := (pyTrunc p.1, pyTrunc p.2)

/-- The four real-valued corners `[pnt_tl, pnt_tr, pnt_br, pnt_bl]` of the
shrunken quad of loop iteration `i` of `draw_center_region_maps`
(lines 300–308), before the `int32` cast. -/
noncomputable def realCornersOfSeg (top bot center : List Pt)
    (region_shrink_ratio : ℝ) (i : ℕ) : List Pt :=
  let t := fun j => top.getD j (0, 0)
  let b := fun j => bot.getD j (0, 0)
  let c := fun j => center.getD j (0, 0)
  [c i + region_shrink_ratio • (t i - c i),
    c (i + 1) + region_shrink_ratio • (t (i + 1) - c (i + 1)),
    c (i + 1) + region_shrink_ratio • (b (i + 1) - c (i + 1)),
    c i + region_shrink_ratio • (b i - c i)]

/-- Loop body `i` of `draw_center_region_maps` (lines 290–314): the shrunken
quad `[pnt_tl, pnt_tr, pnt_br, pnt_bl]` cast to `int32`, together with the
radius and sin/cos values filled with it. -/
noncomputable def quadOfSeg (top bot center : List Pt) (region_shrink_ratio : ℝ)
    (i : ℕ) : QuadVal :=
  let t := fun j => top.getD j (0, 0)
  let b := fun j => bot.getD j (0, 0)
  let c := fun j => center.getD j (0, 0)
  let top_mid := ((2 : ℝ)⁻¹) • (t i + t (i + 1))
  let bot_mid := ((2 : ℝ)⁻¹) • (b i + b (i + 1))
  let text_direction := c (i + 1) - c i
  { quad := (realCornersOfSeg top bot center region_shrink_ratio i).map toInt32
    rad := vnorm (top_mid - bot_mid) / 2
    sinv := vector_sin text_direction
    cosv := vector_cos text_direction }

/-- All quads of one instance, in segment order `i = 0 .. len(center_line)-2`. -/
noncomputable def quadListOf (top bot center : List Pt)
    (region_shrink_ratio : ℝ) : List QuadVal :=
  (List.range (center.length - 1)).map (quadOfSeg top bot center region_shrink_ratio)

/-- `draw_center_region_maps(...)` (lines 261–314): checks the equal-shape
asserts, then rasterizes the per-segment quads over the four maps in segment
order. -/
noncomputable def draw_center_region_maps (hw : ℕ × ℕ)
    (top bot center : List Pt) (M : Maps4) (region_shrink_ratio : ℝ) :
    Option Maps4 :=
  if top.length = bot.length ∧ bot.length = center.length then
    some (paintList hw (quadListOf top bot center region_shrink_ratio) M)
  else none

/-- `[[poly[0][i], poly[0][i+1]] for i in range(0, len(poly[0]), 2)]`: pairs
a flat coordinate list into points; an odd-length list raises `IndexError`
at `poly[0][i+1]`, modelled by `none`. -/
def pairUp : List ℝ → Option (List Pt)
  | [] => some []
  | [_] => none
  | x :: y :: rest => (pairUp rest).map ((x, y) :: ·)

/-- `np.array(text_instance, dtype=np.int32).reshape(-1, 2)`: the instance
points cast to `int32`. -/
noncomputable def toIntPoly (l : List Pt) : List (ℤ × ℤ) := l.map toInt32

/-- Integer points viewed as real points again (the arithmetic after the
`int32` cast happens in floating point). -/
def toRealPts (l : List (ℤ × ℤ)) : List Pt :=
  l.map fun q => ((q.1 : ℝ), (q.2 : ℝ))

open Classical in
/-- Steps 3–6 of the per-instance loop of `generate_center_mask_attrib_maps`
(lines 353–380): reverse the bottom resampled sideline, build the centre
line, canonicalise its direction, and trim both ends when the line is long
enough.  Input: the two lines returned by `resample_sidelines`. -/
noncomputable def alignAndTrim (resample_step : ℝ) (rtop rbot : List Pt) :
    List Pt × List Pt × List Pt :=
  let bot_rev := rbot.reverse
  let center := List.zipWith (fun a b => ((2 : ℝ)⁻¹) • (a + b)) rtop bot_rev
  let dvec := center.getLastD (0, 0) - center.headD (0, 0)
  let flip : Bool :=
    if vector_slope dvec > 9 / 10 then decide (dvec.2 < 0) else decide (dvec.1 < 0)
  let top1 := if flip then rtop.reverse else rtop
  let bot1 := if flip then bot_rev.reverse else bot_rev
  let c1 := if flip then center.reverse else center
  let line_head_shrink_len := vnorm (top1.headD (0, 0) - bot1.headD (0, 0)) / 4
  let line_tail_shrink_len := vnorm (top1.getLastD (0, 0) - bot1.getLastD (0, 0)) / 4
  let hn : ℤ := pyTrunc ⌊line_head_shrink_len / resample_step⌋
  let tn : ℤ := pyTrunc ⌊line_tail_shrink_len / resample_step⌋
  if (c1.length : ℤ) > hn + tn + 2 then
    ((top1.drop hn.toNat).take (top1.length - tn.toNat - hn.toNat),
      (bot1.drop hn.toNat).take (bot1.length - tn.toNat - hn.toNat),
      (c1.drop hn.toNat).take (c1.length - tn.toNat - hn.toNat))
  else (top1, bot1, c1)

/-- The per-instance pipeline of `generate_center_mask_attrib_maps` up to the
three aligned, trimmed lines handed to `draw_center_region_maps`. -/
noncomputable def instanceLines (orientation_thr resample_step : ℝ)
    (poly : List ℝ) : Option (List Pt × List Pt × List Pt) := do
  let prs ← pairUp poly
  let pts := toRealPts (toIntPoly prs)
  let r := reorder_poly_edge orientation_thr pts
  let rs ← resample_sidelines r.2.2.1 r.2.2.2 resample_step
  pure (alignAndTrim resample_step rs.1 rs.2)

/-- `generate_center_mask_attrib_maps(img_size, text_polys)`
(lines 316–388): zero maps, then per polygon (in input order) the
classify/resample/align/trim pipeline followed by rasterization. -/
noncomputable def generate_center_mask_attrib_maps
    (orientation_thr resample_step center_region_shrink_ratio : ℝ)
    (hw : ℕ × ℕ) (polys : List (List ℝ)) : Option Maps4 :=
  polys.foldlM
    (fun M poly => do
      let tbc ← instanceLines orientation_thr resample_step poly
      draw_center_region_maps hw tbc.1 tbc.2.1 tbc.2.2 M
        center_region_shrink_ratio)
    zeroMaps

/-- The flat list of rasterization jobs of one call of
`generate_center_mask_attrib_maps`: instance quads concatenated in input
polygon order. -/
noncomputable def allQuads (orientation_thr resample_step shrink : ℝ)
    (polys : List (List ℝ)) : Option (List QuadVal) :=
  polys.foldlM
    (fun acc poly => do
      let tbc ← instanceLines orientation_thr resample_step poly
      if tbc.1.length = tbc.2.1.length ∧ tbc.2.1.length = tbc.2.2.length then
        pure (acc ++ quadListOf tbc.1 tbc.2.1 tbc.2.2 shrink)
      else none)
    []

/-- `generate_text_region_mask(img_size, text_polys)` (lines 390–415):
fill each polygon (cast to `int32`) with value 1 over a zero mask, in input
order. -/
noncomputable def generate_text_region_mask (hw : ℕ × ℕ)
    (polys : List (List ℝ)) : Option ((ℤ × ℤ) → ℝ) :=
  polys.foldlM
    (fun m poly => do
      let prs ← pairUp poly
      pure (paint hw (toIntPoly prs) 1 m))
    (fun _ => 0)

/-- Spec-side notion (section 4.1): the edge pair `{0-1, 2-3}` or
`{1-2, 3-0}` of a quadrangle whose summed absolute slope is smaller — the
"horizontal" pair (ties go to `{1-2, 3-0}` as in the source's strict
comparison). -/
noncomputable def horizEdgePairInds (pts : List Pt) : (ℕ × ℕ) × (ℕ × ℕ) :=
  let p := fun i => pts.getD i (0, 0)
  if vector_slope (p 1 - p 0) + vector_slope (p 3 - p 2) <
      vector_slope (p 2 - p 1) + vector_slope (p 0 - p 3) then
    ((0, 1), (2, 3))
  else ((3, 0), (1, 2))

/-- Spec-side notion (section 4.1): the complementary, "vertical" edge pair
of a quadrangle. -/
noncomputable def vertEdgePairInds (pts : List Pt) : (ℕ × ℕ) × (ℕ × ℕ) :=
  let p := fun i => pts.getD i (0, 0)
  if vector_slope (p 1 - p 0) + vector_slope (p 3 - p 2) <
      vector_slope (p 2 - p 1) + vector_slope (p 0 - p 3) then
    ((3, 0), (1, 2))
  else ((0, 1), (2, 3))

/-- Total Euclidean length of an edge pair of a polygon. -/
noncomputable def edgePairLen (pts : List Pt) (pr : (ℕ × ℕ) × (ℕ × ℕ)) : ℝ :=
  vnorm (pts.getD pr.1.1 (0, 0) - pts.getD pr.1.2 (0, 0)) +
    vnorm (pts.getD pr.2.1 (0, 0) - pts.getD pr.2.2 (0, 0))

/-- A concave ("dart") quadrilateral as a flat coordinate list:
`(0,0), (300,0), (300,120), (240,30)`, with the reflex vertex `(240,30)`
poking deep into the band between the two sidelines. -/
def dartPoly : List ℝ := [0, 0, 300, 0, 300, 120, 240, 30]

/-- The dart's vertices as points. -/
def dartPts : List Pt := [((0 : ℝ), (0 : ℝ)), (300, 0), (300, 120), (240, 30)]

/-- The interpolation denominator `n + 1e-8` of the dart's resampling
(the shared resample count is `n = 51`). -/
noncomputable def dartD : ℝ := 51 + eps

/-- The dart's resampled top sideline: 52 points from `(0,0)` to `(300,0)`. -/
noncomputable def dartTop : List Pt :=
  ((0 : ℝ), (0 : ℝ)) :: (((List.range' 1 50).map fun i : ℕ =>
    ((0 : ℝ), (0 : ℝ)) + ((i : ℝ) / dartD) • (((300 : ℝ), (0 : ℝ)) - ((0 : ℝ), (0 : ℝ)))) ++
      [((300 : ℝ), (0 : ℝ))])

/-- The dart's resampled bottom sideline: 52 points from `(300,120)` to
`(240,30)`. -/
noncomputable def dartBot : List Pt :=
  ((300 : ℝ), (120 : ℝ)) :: (((List.range' 1 50).map fun i : ℕ =>
    ((300 : ℝ), (120 : ℝ)) +
      ((i : ℝ) / dartD) • (((240 : ℝ), (30 : ℝ)) - ((300 : ℝ), (120 : ℝ)))) ++
      [((240 : ℝ), (30 : ℝ))])

/-- The dart's trimmed top line (head shrink 15, tail shrink 7). -/
noncomputable def dartT : List Pt := (dartTop.drop 15).take 30

/-- The dart's trimmed bottom line. -/
noncomputable def dartB : List Pt := (dartBot.reverse.drop 15).take 30

/-- The dart's trimmed centre line. -/
noncomputable def dartC : List Pt :=
  ((List.zipWith (fun a b => ((2 : ℝ)⁻¹) • (a + b)) dartTop dartBot.reverse).drop 15).take 30

/-! ## Generic list lemmas -/

lemma getD_map {α β : Type} (f : α → β) (l : List α) (i : ℕ) (d : α) :
    (l.map f).getD i (f d) = f (l.getD i d) := by
  simp [List.getD_eq_getElem?_getD, List.getElem?_map]

lemma getD_drop {α : Type} (l : List α) (a i : ℕ) (d : α) :
    (l.drop a).getD i d = l.getD (a + i) d := by
  simp [List.getD_eq_getElem?_getD, List.getElem?_drop]

lemma getD_take_lt {α : Type} (l : List α) (a i : ℕ) (h : i < a) (d : α) :
    (l.take a).getD i d = l.getD i d := by
  simp [List.getD_eq_getElem?_getD, List.getElem?_take, h]

lemma getD_reverse {α : Type} (l : List α) (i : ℕ) (h : i < l.length) (d : α) :
    l.reverse.getD i d = l.getD (l.length - 1 - i) d := by
  rw [List.getD_eq_getElem?_getD, List.getElem?_reverse h, ← List.getD_eq_getElem?_getD]

lemma getD_last_eq {α : Type} (l : List α) (d : α) (h : l ≠ []) :
    l.getD (l.length - 1) d = l.getLastD d := by
  induction l with
  | nil => exact absurd rfl h
  | cons a rest ih =>
    cases rest with
    | nil => rfl
    | cons b r2 =>
      have hne : (b :: r2) ≠ [] := by simp
      have hlen : (a :: b :: r2).length - 1 = (b :: r2).length - 1 + 1 := by
        simp
      rw [hlen, List.getD_cons_succ, ih hne]
      rw [List.getLastD_eq_getLast?, List.getLastD_eq_getLast?,
        List.getLast?_cons_cons]

lemma scanl_getD_zero (l : List ℝ) (a : ℝ) : (List.scanl (· + ·) a l).getD 0 0 = a := by
  cases l <;> rfl

lemma scanl_getD_succ (l : List ℝ) (a : ℝ) (k : ℕ) (h : k < l.length) :
    (List.scanl (· + ·) a l).getD (k + 1) 0 =
      (List.scanl (· + ·) a l).getD k 0 + l.getD k 0 := by
  induction l generalizing a k with
  | nil => simp at h
  | cons x xs ih =>
    cases k with
    | zero =>
      simp [List.scanl, scanl_getD_zero]
    | succ k =>
      have hk : k < xs.length := by simpa using h
      simp only [List.scanl, List.getD_cons_succ]
      exact ih (a + x) k hk

lemma scanl_getD_len (l : List ℝ) (a : ℝ) :
    (List.scanl (· + ·) a l).getD l.length 0 = a + l.sum := by
  induction l generalizing a with
  | nil => simp [List.scanl]
  | cons x xs ih =>
    simp only [List.scanl, List.length_cons, List.getD_cons_succ, List.sum_cons]
    rw [ih (a + x)]
    ring

/-! ## Norm and arc-length lemmas -/

lemma vnorm_nonneg (v : Pt) : 0 ≤ vnorm v := Real.sqrt_nonneg _

lemma vnorm_mk (x y : ℝ) : vnorm (x, y) = Real.sqrt (x ^ 2 + y ^ 2) := rfl

lemma sqrt_num (a b : ℝ) (hb : 0 ≤ b) (h : b ^ 2 = a) : Real.sqrt a = b := by
  rw [← h, Real.sqrt_sq hb]

lemma vnorm_smul (r : ℝ) (v : Pt) (h : 0 ≤ r) : vnorm (r • v) = r * vnorm v := by
  have h1 : (r • v).1 = r * v.1 := rfl
  have h2 : (r • v).2 = r * v.2 := rfl
  rw [vnorm, h1, h2, vnorm,
    show (r * v.1) ^ 2 + (r * v.2) ^ 2 = r ^ 2 * (v.1 ^ 2 + v.2 ^ 2) by ring,
    Real.sqrt_mul (sq_nonneg r), Real.sqrt_sq_eq_abs, abs_of_nonneg h]

lemma lengthsOf_length (line : List Pt) :
    (lengthsOf line).length = line.length - 1 := by
  simp only [lengthsOf, List.length_zipWith, List.length_tail]
  omega

lemma lengthsOf_cons₂ (a b : Pt) (r : List Pt) :
    lengthsOf (a :: b :: r) = vnorm (b - a) :: lengthsOf (b :: r) := rfl

lemma lengthsOf_getD (line : List Pt) (k : ℕ) (h : k + 1 < line.length) :
    (lengthsOf line).getD k 0 =
      vnorm (line.getD (k + 1) (0, 0) - line.getD k (0, 0)) := by
  induction line generalizing k with
  | nil => simp at h
  | cons a rest ih =>
    cases rest with
    | nil => simp at h
    | cons b r2 =>
      cases k with
      | zero => simp [lengthsOf_cons₂]
      | succ k =>
        have hk : k + 1 < (b :: r2).length := by simpa using h
        rw [lengthsOf_cons₂, List.getD_cons_succ, List.getD_cons_succ,
          List.getD_cons_succ]
        exact ih k hk

lemma lengthsOf_mem_nonneg (line : List Pt) : ∀ x ∈ lengthsOf line, 0 ≤ x := by
  induction line with
  | nil => simp [lengthsOf]
  | cons a rest ih =>
    cases rest with
    | nil => simp [lengthsOf]
    | cons b r2 =>
      intro x hx
      rw [lengthsOf_cons₂] at hx
      rcases List.mem_cons.1 hx with h | h
      · rw [h]; exact vnorm_nonneg _
      · exact ih x h

lemma lengthsOf_getD_nonneg (line : List Pt) (k : ℕ) :
    0 ≤ (lengthsOf line).getD k 0 := by
  rcases lt_or_ge k (lengthsOf line).length with h | h
  · refine lengthsOf_mem_nonneg line _ ?_
    rw [List.getD_eq_getElem?_getD, List.getElem?_eq_getElem h]
    simp
  · rw [List.getD_eq_default _ _ h]

lemma arclen_nonneg (line : List Pt) : 0 ≤ arclen line :=
  List.sum_nonneg (lengthsOf_mem_nonneg line)

lemma cumlen_length (line : List Pt) :
    (cumlen line).length = line.length - 1 + 1 := by
  simp [cumlen, List.length_scanl, lengthsOf_length]

lemma cumlen_getD_zero (line : List Pt) : (cumlen line).getD 0 0 = 0 :=
  scanl_getD_zero _ _

lemma cumlen_getD_succ (line : List Pt) (k : ℕ) (h : k < line.length - 1) :
    (cumlen line).getD (k + 1) 0 =
      (cumlen line).getD k 0 + (lengthsOf line).getD k 0 := by
  apply scanl_getD_succ
  rw [lengthsOf_length]
  exact h

lemma cumlen_getD_last (line : List Pt) :
    (cumlen line).getD (line.length - 1) 0 = arclen line := by
  have h := scanl_getD_len (lengthsOf line) 0
  rw [lengthsOf_length] at h
  simpa [cumlen, arclen] using h

/-! ## The while-loop `advance` -/

lemma advance_some (cums : List ℝ) (c : ℝ) (m : ℕ) (hm : m + 1 = cums.length) :
    ∀ f ind, m - ind ≤ f → ind + 1 ≤ m → cums.getD ind 0 ≤ c →
      c < cums.getD m 0 →
      ∃ j, advance cums c ind = some j ∧ ind ≤ j ∧ j + 1 ≤ m ∧
        cums.getD j 0 ≤ c ∧ c < cums.getD (j + 1) 0 := by
  intro f
  induction f with
  | zero => intro ind hf hind _ _; omega
  | succ f ih =>
    intro ind hf hind hstart hc
    rw [advance, dif_pos (show ind + 1 < cums.length by omega)]
    by_cases hle : cums.getD (ind + 1) 0 ≤ c
    · have hne : ind + 1 ≠ m := by
        intro he
        rw [he] at hle
        exact absurd hc (not_lt.2 hle)
      rw [if_pos hle]
      obtain ⟨j, hj, hij, hjm, hjs, hjc⟩ :=
        ih (ind + 1) (by omega) (by omega) hle hc
      exact ⟨j, hj, by omega, hjm, hjs, hjc⟩
    · rw [if_neg hle]
      exact ⟨ind, rfl, le_refl _, hind, hstart, lt_of_not_ge hle⟩

/-! ## `select` and the bending-score argsort -/

lemma bestIdx_mem (xs : List ℝ) (l : List ℕ) (h : l ≠ []) : bestIdx xs l ∈ l := by
  induction l with
  | nil => exact absurd rfl h
  | cons i rest ih =>
    rw [bestIdx]
    by_cases hr : rest = []
    · simp [hr]
    · simp only [if_neg hr]
      by_cases hc : xs.getD (bestIdx xs rest) 0 > xs.getD i 0
      · rw [if_pos hc]
        exact List.mem_cons_of_mem _ (ih hr)
      · rw [if_neg hc]
        exact List.mem_cons_self _ _

lemma select_spec (xs : List ℝ) (h2 : 2 ≤ xs.length) :
    (select xs).1 < xs.length ∧ (select xs).2 < xs.length ∧
      (select xs).1 ≠ (select xs).2 := by
  have hr : (List.range xs.length) ≠ [] := by
    simp only [ne_eq, List.range_eq_nil]
    omega
  have h1 : bestIdx xs (List.range xs.length) ∈ List.range xs.length :=
    bestIdx_mem _ _ hr
  have hfil :
      (List.range xs.length).filter
        (fun j => decide (j ≠ bestIdx xs (List.range xs.length))) ≠ [] := by
    intro hemp
    by_cases hi : bestIdx xs (List.range xs.length) = 0
    · have : (1 : ℕ) ∈ (List.range xs.length).filter
          (fun j => decide (j ≠ bestIdx xs (List.range xs.length))) := by
        rw [List.mem_filter]
        refine ⟨by simp; omega, by simp [hi]⟩
      rw [hemp] at this
      simp at this
    · have : (0 : ℕ) ∈ (List.range xs.length).filter
          (fun j => decide (j ≠ bestIdx xs (List.range xs.length))) := by
        rw [List.mem_filter]
        refine ⟨by simp; omega, by simp; exact fun he => hi he.symm⟩
      rw [hemp] at this
      simp at this
  have h2' := bestIdx_mem xs _ hfil
  rw [List.mem_filter] at h2'
  refine ⟨by simpa using List.mem_range.1 h1, ?_, ?_⟩
  · simpa [select] using List.mem_range.1 h2'.1
  · have := h2'.2
    simp only [decide_eq_true_eq] at this
    simp only [select]
    exact fun he => this (by rw [← he])

lemma thetaSumList_length (pts : List Pt) :
    (thetaSumList pts).length = pts.length := by
  simp only [thetaSumList, edgeVectors, List.length_map, List.length_range,
    List.length_zipWith, List.length_tail, List.length_append]
  simp

/-! ## Modular arithmetic helper -/

lemma mod_two_cases (a n : ℕ) (h : a < 2 * n) (_hn : 0 < n) :
    a % n = if a < n then a else a - n := by
  split_ifs with hc
  · exact Nat.mod_eq_of_lt hc
  · rw [Nat.mod_eq_sub_mod (le_of_not_lt hc), Nat.mod_eq_of_lt]
    omega

lemma findHeadTailBig_spec (n hs ts : ℕ) (h4 : 4 < n) (hhs : hs < n)
    (hts : ts < n) :
    ((|(hs : ℤ) - (ts : ℤ)| < 2 ∨ 12 < |(hs : ℤ) - (ts : ℤ)|) →
      (((findHeadTailBig n hs ts).1.1 = hs ∧
          (findHeadTailBig n hs ts).2.1 = (hs + n / 2) % n) ∨
        ((findHeadTailBig n hs ts).1.1 = (hs + n / 2) % n ∧
          (findHeadTailBig n hs ts).2.1 = hs)) ∧
      min (((findHeadTailBig n hs ts).1.1 : ℤ) -
            ((findHeadTailBig n hs ts).2.1 : ℤ)).natAbs
          (n - (((findHeadTailBig n hs ts).1.1 : ℤ) -
            ((findHeadTailBig n hs ts).2.1 : ℤ)).natAbs) = n / 2) ∧
    (¬(|(hs : ℤ) - (ts : ℤ)| < 2 ∨ 12 < |(hs : ℤ) - (ts : ℤ)|) →
      (((findHeadTailBig n hs ts).1.1 = hs ∧
          (findHeadTailBig n hs ts).2.1 = ts) ∨
        ((findHeadTailBig n hs ts).1.1 = ts ∧
          (findHeadTailBig n hs ts).2.1 = hs)) ∧
      2 ≤ (((findHeadTailBig n hs ts).1.1 : ℤ) -
            ((findHeadTailBig n hs ts).2.1 : ℤ)).natAbs ∧
      (((findHeadTailBig n hs ts).1.1 : ℤ) -
          ((findHeadTailBig n hs ts).2.1 : ℤ)).natAbs ≤ 12) := by
  constructor
  · intro hc
    have hmod : (hs + n / 2) % n =
        if hs + n / 2 < n then hs + n / 2 else hs + n / 2 - n :=
      mod_two_cases _ _ (by omega) (by omega)
    simp only [findHeadTailBig, if_pos hc]
    rcases lt_or_ge (hs + n / 2) n with hin | hin
    · rw [if_pos hin] at hmod
      rw [hmod]
      split_ifs with hswap
      · exact ⟨Or.inr ⟨rfl, rfl⟩, by simp; omega⟩
      · exact ⟨Or.inl ⟨rfl, rfl⟩, by simp; omega⟩
    · rw [if_neg (not_lt.2 hin)] at hmod
      rw [hmod]
      split_ifs with hswap
      · exact ⟨Or.inr ⟨rfl, rfl⟩, by simp; omega⟩
      · exact ⟨Or.inl ⟨rfl, rfl⟩, by simp; omega⟩
  · intro hc
    simp only [findHeadTailBig]
    rw [if_neg hc]
    simp only [Int.abs_eq_natAbs] at hc
    split_ifs with hswap
    · refine ⟨Or.inr ⟨rfl, rfl⟩, ?_, ?_⟩ <;> (dsimp only; omega)
    · refine ⟨Or.inl ⟨rfl, rfl⟩, ?_, ?_⟩ <;> (dsimp only; omega)

/-- C5: in the `> 4` vertex branch, `find_head_tail` is the pure index
computation `findHeadTailBig` on the two bending-score indices chosen by the
argsort; if their absolute separation is `< 2` or `> 12` the tail start is
replaced by `(head_start + len/2) % len` (up to the final head/tail swap),
making the circular separation of the returned start indices exactly
`len / 2`; otherwise the returned start indices are the chosen ones, with
separation in `[2, 12]`. -/
theorem c5_find_head_tail_fallback (pts : List Pt) (thr : ℝ) (hs ts : ℕ)
    (h4 : 4 < pts.length)
    (hsel : select (thetaSumList pts) = (hs, ts)) :
    find_head_tail pts thr = findHeadTailBig pts.length hs ts ∧
    ((|(hs : ℤ) - (ts : ℤ)| < 2 ∨ 12 < |(hs : ℤ) - (ts : ℤ)|) →
      (((findHeadTailBig pts.length hs ts).1.1 = hs ∧
          (findHeadTailBig pts.length hs ts).2.1 =
            (hs + pts.length / 2) % pts.length) ∨
        ((findHeadTailBig pts.length hs ts).1.1 =
            (hs + pts.length / 2) % pts.length ∧
          (findHeadTailBig pts.length hs ts).2.1 = hs)) ∧
      min (((findHeadTailBig pts.length hs ts).1.1 : ℤ) -
            ((findHeadTailBig pts.length hs ts).2.1 : ℤ)).natAbs
          (pts.length - (((findHeadTailBig pts.length hs ts).1.1 : ℤ) -
            ((findHeadTailBig pts.length hs ts).2.1 : ℤ)).natAbs) =
        pts.length / 2) ∧
    (¬(|(hs : ℤ) - (ts : ℤ)| < 2 ∨ 12 < |(hs : ℤ) - (ts : ℤ)|) →
      (((findHeadTailBig pts.length hs ts).1.1 = hs ∧
          (findHeadTailBig pts.length hs ts).2.1 = ts) ∨
        ((findHeadTailBig pts.length hs ts).1.1 = ts ∧
          (findHeadTailBig pts.length hs ts).2.1 = hs)) ∧
      2 ≤ (((findHeadTailBig pts.length hs ts).1.1 : ℤ) -
            ((findHeadTailBig pts.length hs ts).2.1 : ℤ)).natAbs ∧
      (((findHeadTailBig pts.length hs ts).1.1 : ℤ) -
          ((findHeadTailBig pts.length hs ts).2.1 : ℤ)).natAbs ≤ 12) := by
  have hlen : (thetaSumList pts).length = pts.length := thetaSumList_length pts
  have hsp := select_spec (thetaSumList pts) (by omega)
  rw [hsel] at hsp
  rw [hlen] at hsp
  obtain ⟨hh, ht, hne⟩ := hsp
  have hspec := findHeadTailBig_spec pts.length hs ts h4 hh ht
  refine ⟨?_, hspec.1, hspec.2⟩
  rw [find_head_tail, if_pos h4]
  simp only [hsel]

/-- Witness for C5 at a concrete 9-vertex polygon (the selected indices are
whatever the argsort picks; the hypotheses hold definitionally). -/
theorem c5_witness :
    find_head_tail
        [((0 : ℝ), (0 : ℝ)), (4, 0), (8, 0), (8, 2), (6, 3), (4, 4), (2, 3),
          (0, 2), (0, 1)] 2 =
      findHeadTailBig 9
        (select (thetaSumList
          [((0 : ℝ), (0 : ℝ)), (4, 0), (8, 0), (8, 2), (6, 3), (4, 4), (2, 3),
            (0, 2), (0, 1)])).1
        (select (thetaSumList
          [((0 : ℝ), (0 : ℝ)), (4, 0), (8, 0), (8, 2), (6, 3), (4, 4), (2, 3),
            (0, 2), (0, 1)])).2 :=
  (c5_find_head_tail_fallback
    [((0 : ℝ), (0 : ℝ)), (4, 0), (8, 0), (8, 2), (6, 3), (4, 4), (2, 3),
      (0, 2), (0, 1)] 2 _ _ (by norm_num) rfl).1

/-- C8 (counterexample): a numeric, positive `orientation_thr` that is a
Python `int` fails the precondition checks, although the shape is a 2-D
array of five 2-D points. -/
theorem c8_counterexample :
    PyVal.isNumeric (PyVal.int 2) = true ∧ PyVal.isPos (PyVal.int 2) = true ∧
      findHeadTailPre [5, 2] (PyVal.int 2) = false := by
  refine ⟨rfl, by decide, by decide⟩

/-- C8 (amended): the precondition checks of `find_head_tail` fail exactly
when the input has fewer than 4 points, is not a 2-D array of 2-D points, or
the threshold is not a Python `float` (an integer threshold also fails). -/
theorem c8_pre_characterisation (shape : List ℕ) (thr : PyVal) :
    findHeadTailPre shape thr = false ↔
      (shape.getD 0 0 < 4 ∨ shape.length ≠ 2 ∨ shape.getD 1 0 ≠ 2 ∨
        thr.isFloat = false) := by
  cases thr <;> simp [findHeadTailPre, PyVal.isFloat] <;> omega

/-! ## Resampling: success, structure and interior-point positions -/

lemma resampleInterior_spec (line : List Pt) (δ : ℝ) (hδ : 0 ≤ δ) :
    ∀ (k i0 ind : ℕ),
      ind + 1 ≤ line.length - 1 →
      (cumlen line).getD ind 0 ≤ (i0 : ℝ) * δ →
      (∀ i : ℕ, i0 ≤ i → i < i0 + k →
        (i : ℝ) * δ < (cumlen line).getD (line.length - 1) 0) →
      ∃ l, resampleInterior line δ k i0 ind = some l ∧ l.length = k ∧
        ∀ j, j < k → ∃ kk, kk + 1 ≤ line.length - 1 ∧
          (cumlen line).getD kk 0 ≤ ((i0 + j : ℕ) : ℝ) * δ ∧
          ((i0 + j : ℕ) : ℝ) * δ < (cumlen line).getD (kk + 1) 0 ∧
          l.getD j (0, 0) = line.getD kk (0, 0) +
            ((((i0 + j : ℕ) : ℝ) * δ - (cumlen line).getD kk 0) /
                (lengthsOf line).getD kk 0) •
              (line.getD (kk + 1) (0, 0) - line.getD kk (0, 0)) := by
  intro k
  induction k with
  | zero =>
    intro i0 ind hind hstart hlt
    exact ⟨[], rfl, rfl, fun j hj => absurd hj (by omega)⟩
  | succ k ih =>
    intro i0 ind hind hstart hlt
    have hm : (line.length - 1) + 1 = (cumlen line).length := (cumlen_length line).symm
    have hc : (i0 : ℝ) * δ < (cumlen line).getD (line.length - 1) 0 :=
      hlt i0 (le_refl _) (by omega)
    obtain ⟨j, hadv, hij, hjm, hjs, hjc⟩ :=
      advance_some (cumlen line) ((i0 : ℝ) * δ) (line.length - 1) hm
        (line.length - 1 - ind) ind (le_refl _) hind hstart hc
    have hstep : ((i0 : ℕ) : ℝ) * δ ≤ ((i0 + 1 : ℕ) : ℝ) * δ := by
      apply mul_le_mul_of_nonneg_right _ hδ
      push_cast
      linarith
    obtain ⟨rest, hrest, hlen, hspec⟩ :=
      ih (i0 + 1) j hjm (le_trans hjs hstep)
        (fun i hi1 hi2 => hlt i (by omega) (by omega))
    refine ⟨(line.getD j (0, 0) +
        (((i0 : ℝ) * δ - (cumlen line).getD j 0) / (lengthsOf line).getD j 0) •
          (line.getD (j + 1) (0, 0) - line.getD j (0, 0))) :: rest, ?_, ?_, ?_⟩
    · rw [resampleInterior]
      rw [hadv]
      simp only [Option.bind_eq_bind, Option.some_bind]
      rw [hrest]
      rfl
    · simp [hlen]
    · intro jj hjj
      cases jj with
      | zero =>
        refine ⟨j, hjm, by simpa using hjs, by simpa using hjc, by simp⟩
      | succ jj =>
        obtain ⟨kk, hb1, hb2, hb3, hb4⟩ := hspec jj (by omega)
        have heq : i0 + (jj + 1) = i0 + 1 + jj := by omega
        refine ⟨kk, hb1, ?_, ?_, ?_⟩
        · rw [heq]; exact hb2
        · rw [heq]; exact hb3
        · rw [heq, List.getD_cons_succ]; exact hb4

lemma eps_pos : (0 : ℝ) < eps := by norm_num [eps]

lemma resample_line_spec (line : List Pt) (n : ℕ) (h2 : 2 ≤ line.length)
    (h1 : 1 ≤ n) (hpos : n = 1 ∨ 0 < arclen line) :
    ∃ mids, resample_line line n =
        some (line.headD (0, 0) :: (mids ++ [line.getLastD (0, 0)])) ∧
      mids.length = n - 1 ∧
      ∀ j, j < n - 1 → ∃ kk, kk + 1 ≤ line.length - 1 ∧
        (cumlen line).getD kk 0 ≤
          ((1 + j : ℕ) : ℝ) * (arclen line / ((n : ℝ) + eps)) ∧
        ((1 + j : ℕ) : ℝ) * (arclen line / ((n : ℝ) + eps)) <
          (cumlen line).getD (kk + 1) 0 ∧
        mids.getD j (0, 0) = line.getD kk (0, 0) +
          ((((1 + j : ℕ) : ℝ) * (arclen line / ((n : ℝ) + eps)) -
              (cumlen line).getD kk 0) / (lengthsOf line).getD kk 0) •
            (line.getD (kk + 1) (0, 0) - line.getD kk (0, 0)) := by
  have hD : (0 : ℝ) < (n : ℝ) + eps := by
    have := eps_pos
    have : (0 : ℝ) ≤ (n : ℝ) := Nat.cast_nonneg n
    nlinarith [eps_pos]
  have hδ : 0 ≤ arclen line / ((n : ℝ) + eps) :=
    div_nonneg (arclen_nonneg line) (le_of_lt hD)
  have hlt : ∀ i : ℕ, 1 ≤ i → i < 1 + (n - 1) →
      (i : ℝ) * (arclen line / ((n : ℝ) + eps)) <
        (cumlen line).getD (line.length - 1) 0 := by
    intro i hi1 hi2
    rw [cumlen_getD_last]
    rcases hpos with h | h
    · omega
    · have hin : (i : ℝ) / ((n : ℝ) + eps) < 1 := by
        rw [div_lt_one hD]
        have : (i : ℝ) < (n : ℝ) := by
          have : i < n := by omega
          exact_mod_cast this
        linarith [eps_pos]
      calc (i : ℝ) * (arclen line / ((n : ℝ) + eps))
          = arclen line * ((i : ℝ) / ((n : ℝ) + eps)) := by ring
        _ < arclen line * 1 := by
            exact mul_lt_mul_of_pos_left hin h
        _ = arclen line := mul_one _
  obtain ⟨mids, hm, hlen, hspec⟩ :=
    resampleInterior_spec line (arclen line / ((n : ℝ) + eps)) hδ (n - 1) 1 0
      (by omega) (by rw [cumlen_getD_zero]; simpa using hδ) hlt
  refine ⟨mids, ?_, hlen, hspec⟩
  rw [resample_line, if_pos ⟨h2, h1⟩, hm]
  rfl

lemma getD_eq_getElem {α : Type} (l : List α) (i : ℕ) (h : i < l.length)
    (d : α) : l.getD i d = l[i] := by
  rw [List.getD_eq_getElem?_getD, List.getElem?_eq_getElem h]
  rfl

lemma arclen_two_point (a b : Pt) : arclen [a, b] = vnorm (b - a) := by
  simp [arclen, lengthsOf]

lemma zero_pt_arclen : arclen [((0 : ℝ), (0 : ℝ)), (0, 0)] = 0 := by
  rw [arclen_two_point]
  simp [vnorm]

lemma cumlen_two_point (a b : Pt) : cumlen [a, b] = [0, 0 + vnorm (b - a)] := by
  simp [cumlen, lengthsOf, List.scanl]

/-- A zero-arc-length polyline makes the `while` loop of `resample_line` run
past the end of `length_cumsum`: an `IndexError`. -/
lemma resample_line_degenerate :
    resample_line [((0 : ℝ), (0 : ℝ)), (0, 0)] 2 = none := by
  rw [resample_line, if_pos (by norm_num)]
  rw [zero_pt_arclen]
  rw [show (2 : ℕ) - 1 = 1 from rfl]
  rw [resampleInterior]
  rw [cumlen_two_point]
  have hv : vnorm (((0 : ℝ), (0 : ℝ)) - ((0 : ℝ), (0 : ℝ))) = 0 := by
    simp [vnorm]
  rw [hv]
  have hc : ((1 : ℕ) : ℝ) * (0 / ((2 : ℕ) + eps)) = 0 := by norm_num
  rw [hc]
  rw [advance, dif_pos (by norm_num : 0 + 1 < ([0, 0 + (0 : ℝ)]).length)]
  rw [if_pos (by norm_num : ([0, 0 + (0 : ℝ)]).getD (0 + 1) 0 ≤ 0)]
  rw [advance, dif_neg (by norm_num : ¬(1 + 1 < ([0, 0 + (0 : ℝ)]).length))]
  rfl

/-- C3 (counterexample): the degenerate two-point polyline (both points
equal) with `n = 2` makes `resample_line` fail with an index error instead of
returning `n + 1` points. -/
theorem c3_counterexample :
    resample_line [((0 : ℝ), (0 : ℝ)), (0, 0)] 2 = none :=
  resample_line_degenerate

/-- C3 (amended): for every polyline with at least 2 points and every
positive `n`, if additionally `n = 1` or the polyline has positive total arc
length, `resample_line` returns exactly `n + 1` points whose first and last
entries are the verbatim input endpoints. -/
theorem c3_resample_line_count (line : List Pt) (n : ℕ) (h2 : 2 ≤ line.length)
    (h1 : 1 ≤ n) (hpos : n = 1 ∨ 0 < arclen line) :
    ∃ out, resample_line line n = some out ∧ out.length = n + 1 ∧
      out.head? = some (line.headD (0, 0)) ∧
      out.getLast? = some (line.getLastD (0, 0)) := by
  obtain ⟨mids, hm, hlen, _⟩ := resample_line_spec line n h2 h1 hpos
  refine ⟨_, hm, ?_, rfl, ?_⟩
  · have hl2 : (line.headD (0, 0) ::
        (mids ++ [line.getLastD (0, 0)])).length = mids.length + 2 := by
      simp
    rw [hl2, hlen]
    omega
  · rw [← List.cons_append, List.getLast?_concat]

/-- Witness for C3 at the straight line `[(0,0),(10,0)]`, `n = 5`. -/
theorem c3_witness :
    ∃ out, resample_line [((0 : ℝ), (0 : ℝ)), (10, 0)] 5 = some out ∧
      out.length = 5 + 1 ∧ out.head? = some ((0 : ℝ), (0 : ℝ)) ∧
      out.getLast? = some ((10 : ℝ), (0 : ℝ)) :=
  c3_resample_line_count _ 5 (by norm_num) (by norm_num)
    (Or.inr (by
      rw [arclen_two_point]
      rw [show (((10 : ℝ), (0 : ℝ)) - ((0 : ℝ), (0 : ℝ))) = ((10 : ℝ), (0 : ℝ)) by
        simp]
      rw [vnorm_mk, sqrt_num _ 10 (by norm_num) (by norm_num)]
      norm_num))

/-- Closed form of `resample_line` on a straight two-point segment of
positive length: the interior points sit at parameters `i / (n + 1e-8)`. -/
lemma resample_line_two_point (a b : Pt) (n : ℕ) (h1 : 1 ≤ n)
    (hL : 0 < vnorm (b - a)) :
    resample_line [a, b] n =
      some (a :: (((List.range' 1 (n - 1)).map fun i =>
        a + (((i : ℕ) : ℝ) / ((n : ℝ) + eps)) • (b - a)) ++ [b])) := by
  obtain ⟨mids, hm, hlen, hspec⟩ :=
    resample_line_spec [a, b] n (by norm_num) h1 (Or.inr (by rwa [arclen_two_point]))
  have hmids : mids = (List.range' 1 (n - 1)).map fun i =>
      a + (((i : ℕ) : ℝ) / ((n : ℝ) + eps)) • (b - a) := by
    apply List.ext_getElem
    · rw [hlen]
      simp
    · intro j hj hj2
      have hjlt : j < n - 1 := by rwa [hlen] at hj
      obtain ⟨kk, hk1, hk2, hk3, hk4⟩ := hspec j hjlt
      have hlab : ([a, b] : List Pt).length = 2 := rfl
      have hkk : kk = 0 := by omega
      rw [hkk] at hk4
      have hc0 : (cumlen [a, b]).getD 0 0 = 0 := cumlen_getD_zero _
      have hl0 : (lengthsOf [a, b]).getD 0 0 = vnorm (b - a) := by
        simp [lengthsOf]
      rw [hc0, hl0] at hk4
      have hg1 : ([a, b] : List Pt).getD 0 (0, 0) = a := rfl
      have hg2 : ([a, b] : List Pt).getD 1 (0, 0) = b := rfl
      rw [hg1, hg2] at hk4
      have harc : arclen [a, b] = vnorm (b - a) := arclen_two_point a b
      rw [harc] at hk4
      have hLne : vnorm (b - a) ≠ 0 := ne_of_gt hL
      have hDne : (n : ℝ) + eps ≠ 0 := by
        have he := eps_pos
        have hn0 : (0 : ℝ) ≤ (n : ℝ) := Nat.cast_nonneg n
        intro h0
        linarith
      have hcancel :
          (((1 + j : ℕ) : ℝ) * (vnorm (b - a) / ((n : ℝ) + eps)) - 0) /
            vnorm (b - a) = ((1 + j : ℕ) : ℝ) / ((n : ℝ) + eps) := by
        field_simp
        ring
      rw [hcancel] at hk4
      rw [← getD_eq_getElem mids j hj (0, 0), hk4]
      rw [List.getElem_map, List.getElem_range']
      norm_num
  rw [hm, hmids]
  rfl

/-- C2 (counterexample): two sidelines with at least two points each and a
positive step on which `resample_sidelines` fails (the first sideline is
degenerate and the averaged arc length forces a resample count of 2). -/
theorem c2_counterexample :
    resample_sidelines [((0 : ℝ), (0 : ℝ)), (0, 0)]
      [((0 : ℝ), (0 : ℝ)), (20, 0)] 4 = none := by
  have harc2 : arclen [((0 : ℝ), (0 : ℝ)), (20, 0)] = 20 := by
    rw [arclen_two_point]
    rw [show (((20 : ℝ), (0 : ℝ)) - ((0 : ℝ), (0 : ℝ))) = ((20 : ℝ), (0 : ℝ)) by
      simp]
    rw [vnorm_mk, sqrt_num _ 20 (by norm_num) (by norm_num)]
  have hnum : resamplePointNum [((0 : ℝ), (0 : ℝ)), (0, 0)]
      [((0 : ℝ), (0 : ℝ)), (20, 0)] 4 = 2 := by
    rw [resamplePointNum, zero_pt_arclen, harc2]
    rw [pyTrunc, if_pos (by norm_num)]
    rw [show ⌊((0 : ℝ) + 20) / 2 / 4⌋ = 2 by
      rw [Int.floor_eq_iff] <;> norm_num]
    norm_num
  rw [resample_sidelines, if_pos (by norm_num)]
  simp only [hnum]
  rw [show ((2 : ℤ)).toNat = 2 from rfl]
  rw [resample_line_degenerate]
  rfl

/-- C2 (amended): for sidelines of ≥ 2 points and positive step, provided
additionally the shared resample count is 1 or both sidelines have positive
arc length, `resample_sidelines` returns two sequences of the same length
`n + 1`, where `n = max(⌊((len1 + len2)/2)/step⌋, 1)`. -/
theorem c2_resample_sidelines_eq_len (s1 s2 : List Pt) (step : ℝ)
    (h1 : 2 ≤ s1.length) (h2 : 2 ≤ s2.length) (hstep : 0 < step)
    (hn : (resamplePointNum s1 s2 step).toNat = 1 ∨
      (0 < arclen s1 ∧ 0 < arclen s2)) :
    ∃ r1 r2, resample_sidelines s1 s2 step = some (r1, r2) ∧
      r1.length = r2.length ∧
      r1.length = (max (⌊((arclen s1 + arclen s2) / 2) / step⌋) 1).toNat + 1 := by
  have hfloor : resamplePointNum s1 s2 step =
      max (⌊((arclen s1 + arclen s2) / 2) / step⌋) 1 := by
    rw [resamplePointNum, pyTrunc, if_pos]
    exact div_nonneg
      (div_nonneg (by linarith [arclen_nonneg s1, arclen_nonneg s2]) (by norm_num))
      hstep.le
  have hN1 : 1 ≤ (resamplePointNum s1 s2 step).toNat := by
    rw [hfloor]
    have h := le_max_right (⌊((arclen s1 + arclen s2) / 2) / step⌋) 1
    omega
  obtain ⟨o1, ho1, hl1, _, _⟩ := c3_resample_line_count s1
    (resamplePointNum s1 s2 step).toNat h1 hN1
    (by rcases hn with h | h; exact Or.inl h; exact Or.inr h.1)
  obtain ⟨o2, ho2, hl2, _, _⟩ := c3_resample_line_count s2
    (resamplePointNum s1 s2 step).toNat h2 hN1
    (by rcases hn with h | h; exact Or.inl h; exact Or.inr h.2)
  refine ⟨o1, o2, ?_, by rw [hl1, hl2], by rw [hl1, hfloor]⟩
  rw [resample_sidelines, if_pos ⟨h1, h2⟩]
  simp only [ho1, ho2, Option.bind_eq_bind, Option.some_bind]
  rfl

/-- Witness for C2 at two parallel straight sidelines of length 8 with
step 4 (shared count `n = 2`, so both outputs have 3 points). -/
theorem c2_witness :
    ∃ r1 r2, resample_sidelines [((0 : ℝ), (0 : ℝ)), (8, 0)]
        [((0 : ℝ), (2 : ℝ)), (8, 2)] 4 = some (r1, r2) ∧
      r1.length = r2.length ∧
      r1.length = (max (⌊((arclen [((0 : ℝ), (0 : ℝ)), (8, 0)] +
        arclen [((0 : ℝ), (2 : ℝ)), (8, 2)]) / 2) / 4⌋) 1).toNat + 1 := by
  have ha1 : arclen [((0 : ℝ), (0 : ℝ)), (8, 0)] = 8 := by
    rw [arclen_two_point]
    rw [show (((8 : ℝ), (0 : ℝ)) - ((0 : ℝ), (0 : ℝ))) = ((8 : ℝ), (0 : ℝ)) by simp]
    rw [vnorm_mk, sqrt_num _ 8 (by norm_num) (by norm_num)]
  have ha2 : arclen [((0 : ℝ), (2 : ℝ)), (8, 2)] = 8 := by
    rw [arclen_two_point]
    rw [show (((8 : ℝ), (2 : ℝ)) - ((0 : ℝ), (2 : ℝ))) = ((8 : ℝ), (0 : ℝ)) by
      simp [Prod.mk_sub_mk]]
    rw [vnorm_mk, sqrt_num _ 8 (by norm_num) (by norm_num)]
  exact c2_resample_sidelines_eq_len _ _ 4 (by norm_num) (by norm_num)
    (by norm_num) (Or.inr (by rw [ha1, ha2]; norm_num))

/-- C4 (counterexample): resampling the straight two-point line
`[(0,0),(10,0)]` with `n = 5` does not place the first interior point at
`x = 2`: because `delta_length = total_length / (n + 1e-8)`, it sits at
`x = 10 / (5 + 1e-8) ≠ 2`. -/
theorem c4_counterexample :
    ∃ out, resample_line [((0 : ℝ), (0 : ℝ)), (10, 0)] 5 = some out ∧
      out.getD 1 (0, 0) ≠ ((2 : ℝ), (0 : ℝ)) := by
  have hL : 0 < vnorm (((10 : ℝ), (0 : ℝ)) - ((0 : ℝ), (0 : ℝ))) := by
    rw [show (((10 : ℝ), (0 : ℝ)) - ((0 : ℝ), (0 : ℝ))) = ((10 : ℝ), (0 : ℝ)) by
      simp]
    rw [vnorm_mk, sqrt_num _ 10 (by norm_num) (by norm_num)]
    norm_num
  refine ⟨_, resample_line_two_point ((0 : ℝ), (0 : ℝ)) ((10 : ℝ), (0 : ℝ)) 5
    (by norm_num) hL, ?_⟩
  have hrange : List.range' 1 (5 - 1) = [1, 2, 3, 4] := rfl
  rw [hrange]
  intro heq
  have hx := congrArg Prod.fst heq
  simp only [List.getD_cons_succ, List.getD_cons_zero, List.map_cons,
    List.cons_append] at hx
  have hx1 : (((0 : ℝ), (0 : ℝ)) +
      (((1 : ℕ) : ℝ) / ((5 : ℕ) + eps)) • (((10 : ℝ), (0 : ℝ)) -
        ((0 : ℝ), (0 : ℝ)))).1 = 10 / (5 + eps) := by
    simp [eps]
    norm_num
  rw [hx1] at hx
  rw [eps] at hx
  norm_num at hx

/-- C4 (amended): for every polyline of positive total length, every interior
output index `i ∈ [1, n-1]` of a successful `resample_line` call lies on some
original segment `kk` at cumulative arc length exactly
`i * (totalLength / (n + 1e-8))` — linear interpolation inside the enclosing
segment — not `i * (totalLength / n)` as originally claimed. -/
theorem c4_interior_positions (line : List Pt) (n : ℕ) (h2 : 2 ≤ line.length)
    (h1 : 1 ≤ n) (hpos : 0 < arclen line) (out : List Pt)
    (hout : resample_line line n = some out) (i : ℕ) (hi1 : 1 ≤ i)
    (hin : i ≤ n - 1) :
    ∃ kk, kk + 1 ≤ line.length - 1 ∧
      (cumlen line).getD kk 0 ≤ (i : ℝ) * (arclen line / ((n : ℝ) + eps)) ∧
      (i : ℝ) * (arclen line / ((n : ℝ) + eps)) < (cumlen line).getD (kk + 1) 0 ∧
      out.getD i (0, 0) = line.getD kk (0, 0) +
        (((i : ℝ) * (arclen line / ((n : ℝ) + eps)) - (cumlen line).getD kk 0) /
            (lengthsOf line).getD kk 0) •
          (line.getD (kk + 1) (0, 0) - line.getD kk (0, 0)) ∧
      (cumlen line).getD kk 0 +
          vnorm (out.getD i (0, 0) - line.getD kk (0, 0)) =
        (i : ℝ) * (arclen line / ((n : ℝ) + eps)) := by
  obtain ⟨mids, hm, hlen, hspec⟩ := resample_line_spec line n h2 h1 (Or.inr hpos)
  have houteq : out = line.headD (0, 0) :: (mids ++ [line.getLastD (0, 0)]) :=
    Option.some.inj (hout.symm.trans hm)
  obtain ⟨kk, hk1, hk2, hk3, hk4⟩ := hspec (i - 1) (by omega)
  have hcast : (1 + (i - 1) : ℕ) = i := by omega
  rw [hcast] at hk2 hk3 hk4
  have hiD : out.getD i (0, 0) = mids.getD (i - 1) (0, 0) := by
    rw [houteq]
    rw [show i = (i - 1) + 1 by omega, List.getD_cons_succ]
    exact List.getD_append mids [line.getLastD (0, 0)] (0, 0) (i - 1)
      (by omega)
  have hlenpos : 0 < (lengthsOf line).getD kk 0 := by
    have hsucc := cumlen_getD_succ line kk (by omega)
    nlinarith [hk2, hk3]
  refine ⟨kk, hk1, hk2, hk3, by rw [hiD]; exact hk4, ?_⟩
  rw [hiD, hk4]
  rw [add_sub_cancel_left]
  rw [vnorm_smul _ _ (div_nonneg (by linarith) hlenpos.le)]
  rw [← lengthsOf_getD line kk (by omega)]
  rw [div_mul_cancel₀ _ (ne_of_gt hlenpos)]
  ring

/-- Witness for C4: the line `[(0,0),(10,0)]` with `n = 5` at interior
index `i = 2`. -/
theorem c4_witness :
    ∃ out, resample_line [((0 : ℝ), (0 : ℝ)), (10, 0)] 5 = some out ∧
      ∃ kk, kk + 1 ≤ ([((0 : ℝ), (0 : ℝ)), (10, 0)] : List Pt).length - 1 ∧
        (cumlen [((0 : ℝ), (0 : ℝ)), (10, 0)]).getD kk 0 ≤
          ((2 : ℕ) : ℝ) *
            (arclen [((0 : ℝ), (0 : ℝ)), (10, 0)] / ((5 : ℕ) + eps)) ∧
        ((2 : ℕ) : ℝ) * (arclen [((0 : ℝ), (0 : ℝ)), (10, 0)] / ((5 : ℕ) + eps)) <
          (cumlen [((0 : ℝ), (0 : ℝ)), (10, 0)]).getD (kk + 1) 0 ∧
        out.getD 2 (0, 0) =
          ([((0 : ℝ), (0 : ℝ)), (10, 0)] : List Pt).getD kk (0, 0) +
            ((((2 : ℕ) : ℝ) *
                (arclen [((0 : ℝ), (0 : ℝ)), (10, 0)] / ((5 : ℕ) + eps)) -
                (cumlen [((0 : ℝ), (0 : ℝ)), (10, 0)]).getD kk 0) /
                (lengthsOf [((0 : ℝ), (0 : ℝ)), (10, 0)]).getD kk 0) •
              (([((0 : ℝ), (0 : ℝ)), (10, 0)] : List Pt).getD (kk + 1) (0, 0) -
                ([((0 : ℝ), (0 : ℝ)), (10, 0)] : List Pt).getD kk (0, 0)) ∧
        (cumlen [((0 : ℝ), (0 : ℝ)), (10, 0)]).getD kk 0 +
            vnorm (out.getD 2 (0, 0) -
              ([((0 : ℝ), (0 : ℝ)), (10, 0)] : List Pt).getD kk (0, 0)) =
          ((2 : ℕ) : ℝ) *
            (arclen [((0 : ℝ), (0 : ℝ)), (10, 0)] / ((5 : ℕ) + eps)) := by
  have harc : 0 < arclen [((0 : ℝ), (0 : ℝ)), (10, 0)] := by
    rw [arclen_two_point]
    rw [show (((10 : ℝ), (0 : ℝ)) - ((0 : ℝ), (0 : ℝ))) = ((10 : ℝ), (0 : ℝ)) by
      simp]
    rw [vnorm_mk, sqrt_num _ 10 (by norm_num) (by norm_num)]
    norm_num
  obtain ⟨out, hout, _, _, _⟩ :=
    c3_resample_line_count [((0 : ℝ), (0 : ℝ)), (10, 0)] 5 (by norm_num)
      (by norm_num) (Or.inr harc)
  exact ⟨out, hout, c4_interior_positions _ 5 (by norm_num) (by norm_num)
    harc out hout 2 (by norm_num) (by norm_num)⟩

/-! ## Rasterization order: last write wins -/

lemma paintList_append (hw : ℕ × ℕ) (L1 L2 : List QuadVal) (M : Maps4) :
    paintList hw (L1 ++ L2) M = paintList hw L2 (paintList hw L1 M) := by
  simp [paintList, List.foldl_append]

lemma paintList_proj (hw : ℕ × ℕ) (L : List QuadVal) (M : Maps4) (p : ℤ × ℤ) :
    (paintList hw L M).mask p =
      (match L.reverse.find? (fun qv => inPoly qv.quad p && inBounds hw p) with
        | some _ => (1 : ℝ)
        | none => M.mask p) ∧
    (paintList hw L M).radius p =
      (match L.reverse.find? (fun qv => inPoly qv.quad p && inBounds hw p) with
        | some qv => qv.rad
        | none => M.radius p) ∧
    (paintList hw L M).sinm p =
      (match L.reverse.find? (fun qv => inPoly qv.quad p && inBounds hw p) with
        | some qv => qv.sinv
        | none => M.sinm p) ∧
    (paintList hw L M).cosm p =
      (match L.reverse.find? (fun qv => inPoly qv.quad p && inBounds hw p) with
        | some qv => qv.cosv
        | none => M.cosm p) := by
  induction L generalizing M with
  | nil => exact ⟨rfl, rfl, rfl, rfl⟩
  | cons qv rest ih =>
    have hfold : paintList hw (qv :: rest) M = paintList hw rest (paintStep hw M qv) := by
      simp [paintList]
    rw [hfold, List.reverse_cons]
    obtain ⟨ih1, ih2, ih3, ih4⟩ := ih (paintStep hw M qv)
    cases hfind : rest.reverse.find? (fun qv => inPoly qv.quad p && inBounds hw p) with
    | some x =>
      have happ : (rest.reverse ++ [qv]).find?
            (fun qv => inPoly qv.quad p && inBounds hw p) = some x := by
        simp [List.find?_append, hfind]
      rw [happ]
      refine ⟨?_, ?_, ?_, ?_⟩
      · rw [ih1, hfind]
      · rw [ih2, hfind]
      · rw [ih3, hfind]
      · rw [ih4, hfind]
    | none =>
      have happ : (rest.reverse ++ [qv]).find?
            (fun qv => inPoly qv.quad p && inBounds hw p) =
          [qv].find? (fun qv => inPoly qv.quad p && inBounds hw p) := by
        simp [List.find?_append, hfind]
      rw [happ]
      by_cases hc : (inPoly qv.quad p && inBounds hw p) = true
      · have hone : [qv].find? (fun qv => inPoly qv.quad p && inBounds hw p) =
            some qv := by
          simp [List.find?, hc]
        rw [hone]
        refine ⟨?_, ?_, ?_, ?_⟩ <;>
          simp only [ih1, ih2, ih3, ih4, hfind] <;>
          simp [paintStep, paint, hc]
      · have hone : [qv].find? (fun qv => inPoly qv.quad p && inBounds hw p) =
            none := by
          simp [List.find?, hc]
        rw [hone]
        refine ⟨?_, ?_, ?_, ?_⟩ <;>
          simp only [ih1, ih2, ih3, ih4, hfind] <;>
          simp [paintStep, paint, hc]

lemma allQuads_shift (thr step shrink : ℝ) :
    ∀ (polys : List (List ℝ)) (acc : List QuadVal),
      polys.foldlM
          (fun acc poly => do
            let tbc ← instanceLines thr step poly
            if tbc.1.length = tbc.2.1.length ∧ tbc.2.1.length = tbc.2.2.length then
              pure (acc ++ quadListOf tbc.1 tbc.2.1 tbc.2.2 shrink)
            else none)
          acc =
        (allQuads thr step shrink polys).map fun L => acc ++ L := by
  intro polys
  induction polys with
  | nil =>
    intro acc
    simp [allQuads]
  | cons poly ps ih =>
    intro acc
    rw [allQuads]
    rw [List.foldlM_cons, List.foldlM_cons]
    try simp only [Option.bind_eq_bind] at ih ⊢
    cases hinst : instanceLines thr step poly with
    | none => rfl
    | some tbc =>
      by_cases hg : tbc.1.length = tbc.2.1.length ∧ tbc.2.1.length = tbc.2.2.length
      · have hstep1 : ((some tbc).bind fun tbc =>
            if tbc.1.length = tbc.2.1.length ∧ tbc.2.1.length = tbc.2.2.length then
              pure (acc ++ quadListOf tbc.1 tbc.2.1 tbc.2.2 shrink)
            else none) =
            some (acc ++ quadListOf tbc.1 tbc.2.1 tbc.2.2 shrink) := by
          rw [Option.some_bind, if_pos hg]
          rfl
        have hstep2 : ((some tbc).bind fun tbc =>
            if tbc.1.length = tbc.2.1.length ∧ tbc.2.1.length = tbc.2.2.length then
              pure (([] : List QuadVal) ++ quadListOf tbc.1 tbc.2.1 tbc.2.2 shrink)
            else none) =
            some (quadListOf tbc.1 tbc.2.1 tbc.2.2 shrink) := by
          rw [Option.some_bind, if_pos hg]
          rfl
        rw [hstep1, hstep2, Option.some_bind, Option.some_bind]
        rw [ih (acc ++ quadListOf tbc.1 tbc.2.1 tbc.2.2 shrink)]
        rw [ih (quadListOf tbc.1 tbc.2.1 tbc.2.2 shrink)]
        cases allQuads thr step shrink ps with
        | none => rfl
        | some L => simp [List.append_assoc]
      · have hstep1 : ((some tbc).bind fun tbc =>
            if tbc.1.length = tbc.2.1.length ∧ tbc.2.1.length = tbc.2.2.length then
              pure (acc ++ quadListOf tbc.1 tbc.2.1 tbc.2.2 shrink)
            else none) = none := by
          rw [Option.some_bind, if_neg hg]
        have hstep2 : ((some tbc).bind fun tbc =>
            if tbc.1.length = tbc.2.1.length ∧ tbc.2.1.length = tbc.2.2.length then
              pure (([] : List QuadVal) ++ quadListOf tbc.1 tbc.2.1 tbc.2.2 shrink)
            else none) = none := by
          rw [Option.some_bind, if_neg hg]
        rw [hstep1, hstep2]
        rfl

lemma generate_eq_paintList (thr step shrink : ℝ) (hw : ℕ × ℕ)
    (polys : List (List ℝ)) :
    generate_center_mask_attrib_maps thr step shrink hw polys =
      (allQuads thr step shrink polys).map fun L => paintList hw L zeroMaps := by
  rw [generate_center_mask_attrib_maps]
  have main : ∀ (ps : List (List ℝ)) (M : Maps4),
      ps.foldlM
          (fun M poly => do
            let tbc ← instanceLines thr step poly
            draw_center_region_maps hw tbc.1 tbc.2.1 tbc.2.2 M shrink)
          M =
        (allQuads thr step shrink ps).map fun L => paintList hw L M := by
    intro ps
    induction ps with
    | nil =>
      intro M
      simp [allQuads, paintList]
    | cons poly ps ih =>
      intro M
      rw [allQuads, List.foldlM_cons, List.foldlM_cons]
      try simp only [Option.bind_eq_bind] at ih ⊢
      cases hinst : instanceLines thr step poly with
      | none => rfl
      | some tbc =>
        by_cases hg : tbc.1.length = tbc.2.1.length ∧ tbc.2.1.length = tbc.2.2.length
        · have hstep1 : ((some tbc).bind fun tbc =>
              draw_center_region_maps hw tbc.1 tbc.2.1 tbc.2.2 M shrink) =
              some (paintList hw (quadListOf tbc.1 tbc.2.1 tbc.2.2 shrink) M) := by
            rw [Option.some_bind, draw_center_region_maps, if_pos hg]
          have hstep2 : ((some tbc).bind fun tbc =>
              if tbc.1.length = tbc.2.1.length ∧ tbc.2.1.length = tbc.2.2.length then
                pure (([] : List QuadVal) ++ quadListOf tbc.1 tbc.2.1 tbc.2.2 shrink)
              else none) =
              some (quadListOf tbc.1 tbc.2.1 tbc.2.2 shrink) := by
            rw [Option.some_bind, if_pos hg]
            rfl
          rw [hstep1, hstep2, Option.some_bind, Option.some_bind]
          rw [ih (paintList hw (quadListOf tbc.1 tbc.2.1 tbc.2.2 shrink) M)]
          have hshift := allQuads_shift thr step shrink ps
            (quadListOf tbc.1 tbc.2.1 tbc.2.2 shrink)
          try simp only [Option.bind_eq_bind] at hshift
          rw [hshift]
          cases allQuads thr step shrink ps with
          | none => rfl
          | some L =>
            simp only [Option.map_some']
            rw [← paintList_append]
        · have hstep1 : ((some tbc).bind fun tbc =>
              draw_center_region_maps hw tbc.1 tbc.2.1 tbc.2.2 M shrink) = none := by
            rw [Option.some_bind, draw_center_region_maps, if_neg hg]
          have hstep2 : ((some tbc).bind fun tbc =>
              if tbc.1.length = tbc.2.1.length ∧ tbc.2.1.length = tbc.2.2.length then
                pure (([] : List QuadVal) ++ quadListOf tbc.1 tbc.2.1 tbc.2.2 shrink)
              else none) = none := by
            rw [Option.some_bind, if_neg hg]
          rw [hstep1, hstep2]
          rfl
  exact main polys zeroMaps

/-- C1: the maps produced by `generate_center_mask_attrib_maps` obey
last-write-wins: at every pixel, each of the four maps holds the value
painted by the last rasterization job — instance quads in input polygon
order, segments in order within one instance — whose quad covers the pixel
(inside the image), and `0` where no job covers it.  Both sides are `none`
exactly when the call fails. -/
theorem c1_last_write_wins (thr step shrink : ℝ) (hw : ℕ × ℕ)
    (polys : List (List ℝ)) (p : ℤ × ℤ) :
    (generate_center_mask_attrib_maps thr step shrink hw polys).map
        (fun M => M.mask p) =
      (allQuads thr step shrink polys).map (fun L =>
        match L.reverse.find? (fun qv => inPoly qv.quad p && inBounds hw p) with
        | some _ => (1 : ℝ)
        | none => 0) ∧
    (generate_center_mask_attrib_maps thr step shrink hw polys).map
        (fun M => M.radius p) =
      (allQuads thr step shrink polys).map (fun L =>
        match L.reverse.find? (fun qv => inPoly qv.quad p && inBounds hw p) with
        | some qv => qv.rad
        | none => 0) ∧
    (generate_center_mask_attrib_maps thr step shrink hw polys).map
        (fun M => M.sinm p) =
      (allQuads thr step shrink polys).map (fun L =>
        match L.reverse.find? (fun qv => inPoly qv.quad p && inBounds hw p) with
        | some qv => qv.sinv
        | none => 0) ∧
    (generate_center_mask_attrib_maps thr step shrink hw polys).map
        (fun M => M.cosm p) =
      (allQuads thr step shrink polys).map (fun L =>
        match L.reverse.find? (fun qv => inPoly qv.quad p && inBounds hw p) with
        | some qv => qv.cosv
        | none => 0) := by
  rw [generate_eq_paintList]
  cases hq : allQuads thr step shrink polys with
  | none => exact ⟨rfl, rfl, rfl, rfl⟩
  | some L =>
    obtain ⟨h1, h2, h3, h4⟩ := paintList_proj hw L zeroMaps p
    simp only [Option.map_some']
    exact ⟨by rw [h1]; rfl, by rw [h2]; rfl, by rw [h3]; rfl, by rw [h4]; rfl⟩

/-! ## Head/tail index bounds and the sideline partition -/

lemma findHeadTailQuad_cases (pts : List Pt) (thr : ℝ) :
    findHeadTailQuad pts thr = ((0, 1), (2, 3)) ∨
      findHeadTailQuad pts thr = ((3, 0), (1, 2)) := by
  rw [findHeadTailQuad]
  split_ifs <;> first
  | exact Or.inl rfl
  | exact Or.inr rfl

lemma findHeadTailBig_ends (n hs ts : ℕ) (h4 : 4 < n) (hhs : hs < n)
    (hts : ts < n) :
    (findHeadTailBig n hs ts).1.2 < (findHeadTailBig n hs ts).2.2 ∧
      (findHeadTailBig n hs ts).2.2 < n ∧
      1 ≤ (findHeadTailBig n hs ts).2.2 ∧
      (findHeadTailBig n hs ts).1.2 < n := by
  simp only [findHeadTailBig]
  by_cases hc : |(hs : ℤ) - (ts : ℤ)| < 2 ∨ 12 < |(hs : ℤ) - (ts : ℤ)|
  · rw [if_pos hc]
    have hmod : (hs + n / 2) % n =
        if hs + n / 2 < n then hs + n / 2 else hs + n / 2 - n :=
      mod_two_cases _ _ (by omega) (by omega)
    have ht'n : (hs + n / 2) % n < n := Nat.mod_lt _ (by omega)
    have ht'ne : (hs + n / 2) % n ≠ hs := by
      rw [hmod]
      split_ifs <;> omega
    have hhemod : (hs + 1) % n = if hs + 1 < n then hs + 1 else 0 := by
      rw [mod_two_cases _ _ (by omega) (by omega)]
      split_ifs <;> omega
    have htemod : ((hs + n / 2) % n + 1) % n =
        if (hs + n / 2) % n + 1 < n then (hs + n / 2) % n + 1 else 0 := by
      rw [mod_two_cases _ _ (by omega) (by omega)]
      split_ifs <;> omega
    rw [hhemod, htemod]
    split_ifs <;> refine ⟨?_, ?_, ?_, ?_⟩ <;> (dsimp only; omega)
  · rw [if_neg hc]
    simp only [Int.abs_eq_natAbs] at hc
    have hne : hs ≠ ts := by omega
    have hhemod : (hs + 1) % n = if hs + 1 < n then hs + 1 else 0 := by
      rw [mod_two_cases _ _ (by omega) (by omega)]
      split_ifs <;> omega
    have htemod : (ts + 1) % n = if ts + 1 < n then ts + 1 else 0 := by
      rw [mod_two_cases _ _ (by omega) (by omega)]
      split_ifs <;> omega
    rw [hhemod, htemod]
    split_ifs <;> refine ⟨?_, ?_, ?_, ?_⟩ <;> (dsimp only; omega)

lemma find_head_tail_bounds (pts : List Pt) (thr : ℝ) (h4 : 4 ≤ pts.length) :
    (find_head_tail pts thr).1.2 < (find_head_tail pts thr).2.2 ∧
      (find_head_tail pts thr).2.2 < pts.length ∧
      1 ≤ (find_head_tail pts thr).2.2 ∧
      (find_head_tail pts thr).1.2 < pts.length := by
  rw [find_head_tail]
  by_cases hbig : 4 < pts.length
  · rw [if_pos hbig]
    obtain ⟨hh, ht, _⟩ := select_spec (thetaSumList pts)
      (by rw [thetaSumList_length]; omega)
    rw [thetaSumList_length] at hh ht
    exact findHeadTailBig_ends pts.length _ _ hbig hh ht
  · rw [if_neg hbig]
    have hlen : pts.length = 4 := by omega
    rcases findHeadTailQuad_cases pts thr with h | h <;> rw [h] <;>
      refine ⟨?_, ?_, ?_, ?_⟩ <;> (dsimp only; omega)

lemma pad_slice_take (pts : List Pt) (he te : ℕ) (hhe : he < te)
    (hte : te ≤ pts.length) :
    ((pts ++ pts).drop he).take (te - he) = (pts.rotate he).take (te - he) := by
  have hhelen : he ≤ pts.length := by omega
  rw [List.rotate_eq_drop_append_take hhelen]
  rw [List.drop_append_eq_append_drop]
  rw [Nat.sub_eq_zero_of_le hhelen, List.drop_zero]
  rw [List.take_append_eq_append_take, List.take_append_eq_append_take]
  have hfit : te - he ≤ (pts.drop he).length := by
    rw [List.length_drop]
    omega
  rw [Nat.sub_eq_zero_of_le hfit]
  simp

lemma pad_slice_drop (pts : List Pt) (he te : ℕ) (hhe : he < te)
    (hte : te ≤ pts.length) :
    ((pts ++ pts).drop te).take (he + pts.length - te) =
      (pts.rotate he).drop (te - he) := by
  have hhelen : he ≤ pts.length := by omega
  rw [List.rotate_eq_drop_append_take hhelen]
  rw [List.drop_append_eq_append_drop, Nat.sub_eq_zero_of_le hte, List.drop_zero]
  rw [List.take_append_eq_append_take]
  have hdlen : (pts.drop te).length = pts.length - te := List.length_drop _ _
  have htake1 : (pts.drop te).take (he + pts.length - te) = pts.drop te := by
    apply List.take_of_length_le
    omega
  rw [htake1]
  rw [List.drop_append_eq_append_drop]
  have hfit2 : te - he ≤ (pts.drop he).length := by
    rw [List.length_drop]
    omega
  rw [Nat.sub_eq_zero_of_le hfit2, List.drop_zero]
  rw [List.drop_drop]
  have harith : he + (te - he) = te := by omega
  rw [harith, hdlen]
  have harith2 : he + pts.length - te - (pts.length - te) = he := by omega
  rw [harith2]

/-- C10: for a polygon of at least 4 vertices, the two sidelines returned by
`reorder_poly_edge` partition the vertex cycle: together (in one of the two
orders) they are exactly the rotation of the vertex list starting at the
head edge's second vertex, split after `tail_end - head_end` entries (so
sideline 2 starts at the tail edge's second vertex); their lengths sum to the
vertex count, and their concatenation is a permutation of the vertex list. -/
theorem c10_sideline_partition (thr : ℝ) (pts : List Pt)
    (h4 : 4 ≤ pts.length) :
    ∃ k,
      0 < k ∧ k < pts.length ∧
      k = (find_head_tail pts thr).2.2 - (find_head_tail pts thr).1.2 ∧
      (((reorder_poly_edge thr pts).2.2.1 =
          (pts.rotate (find_head_tail pts thr).1.2).take k ∧
        (reorder_poly_edge thr pts).2.2.2 =
          (pts.rotate (find_head_tail pts thr).1.2).drop k) ∨
       ((reorder_poly_edge thr pts).2.2.2 =
          (pts.rotate (find_head_tail pts thr).1.2).take k ∧
        (reorder_poly_edge thr pts).2.2.1 =
          (pts.rotate (find_head_tail pts thr).1.2).drop k)) ∧
      (reorder_poly_edge thr pts).2.2.1.length +
          (reorder_poly_edge thr pts).2.2.2.length = pts.length ∧
      ((reorder_poly_edge thr pts).2.2.1 ++
        (reorder_poly_edge thr pts).2.2.2).Perm pts := by
  obtain ⟨hlt, hn, h1le, _⟩ := find_head_tail_bounds pts thr h4
  have hperm : (pts.rotate (find_head_tail pts thr).1.2).Perm pts :=
    List.rotate_perm pts _
  have hsplit : (pts.rotate (find_head_tail pts thr).1.2).take
        ((find_head_tail pts thr).2.2 - (find_head_tail pts thr).1.2) ++
      (pts.rotate (find_head_tail pts thr).1.2).drop
        ((find_head_tail pts thr).2.2 - (find_head_tail pts thr).1.2) =
      pts.rotate (find_head_tail pts thr).1.2 := List.take_append_drop _ _
  have hrotlen : (pts.rotate (find_head_tail pts thr).1.2).length = pts.length :=
    List.length_rotate _ _
  have hs1 : ((pts ++ pts).drop (find_head_tail pts thr).1.2).take
        ((find_head_tail pts thr).2.2 - (find_head_tail pts thr).1.2) =
      (pts.rotate (find_head_tail pts thr).1.2).take
        ((find_head_tail pts thr).2.2 - (find_head_tail pts thr).1.2) :=
    pad_slice_take pts _ _ hlt (by omega)
  have hs2 : ((pts ++ pts).drop (find_head_tail pts thr).2.2).take
        ((find_head_tail pts thr).1.2 + pts.length - (find_head_tail pts thr).2.2) =
      (pts.rotate (find_head_tail pts thr).1.2).drop
        ((find_head_tail pts thr).2.2 - (find_head_tail pts thr).1.2) :=
    pad_slice_drop pts _ _ hlt (by omega)
  have htlen : ((pts.rotate (find_head_tail pts thr).1.2).take
        ((find_head_tail pts thr).2.2 - (find_head_tail pts thr).1.2)).length =
      (find_head_tail pts thr).2.2 - (find_head_tail pts thr).1.2 := by
    rw [List.length_take, hrotlen]
    omega
  have hdlen : ((pts.rotate (find_head_tail pts thr).1.2).drop
        ((find_head_tail pts thr).2.2 - (find_head_tail pts thr).1.2)).length =
      pts.length - ((find_head_tail pts thr).2.2 - (find_head_tail pts thr).1.2) := by
    rw [List.length_drop, hrotlen]
  have hreo : (reorder_poly_edge thr pts).2.2 =
      (let s1 := ((pts ++ pts).drop (find_head_tail pts thr).1.2).take
        ((find_head_tail pts thr).2.2 - (find_head_tail pts thr).1.2)
      let s2 := ((pts ++ pts).drop (find_head_tail pts thr).2.2).take
        ((find_head_tail pts thr).1.2 + pts.length - (find_head_tail pts thr).2.2)
      if (listMean s1 - listMean s2).2 > 0 then (s2, s1) else (s1, s2)) := by
    rw [reorder_poly_edge]
    rw [if_neg (by omega : ¬(find_head_tail pts thr).2.2 < 1)]
    dsimp only
    split_ifs <;> rfl
  refine ⟨(find_head_tail pts thr).2.2 - (find_head_tail pts thr).1.2,
    by omega, by omega, rfl, ?_, ?_, ?_⟩
  · rw [hreo]
    dsimp only
    split_ifs
    · right
      exact ⟨by rw [hs1], by rw [hs2]⟩
    · left
      exact ⟨by rw [hs1], by rw [hs2]⟩
  · rw [hreo]
    dsimp only
    split_ifs
    · rw [hs1, hs2]
      dsimp only
      rw [hdlen, htlen]
      omega
    · rw [hs1, hs2]
      dsimp only
      rw [hdlen, htlen]
      omega
  · rw [hreo]
    dsimp only
    split_ifs
    · rw [hs1, hs2]
      dsimp only
      refine List.Perm.trans (List.perm_append_comm) ?_
      rw [hsplit]
      exact hperm
    · rw [hs1, hs2]
      dsimp only
      rw [hsplit]
      exact hperm

/-- Witness for C10 at the concrete quadrangle
`[(0,0),(10,0),(10,2),(0,2)]`. -/
theorem c10_witness :
    ∃ k,
      0 < k ∧ k < ([((0 : ℝ), (0 : ℝ)), (10, 0), (10, 2), (0, 2)] : List Pt).length ∧
      k = (find_head_tail [((0 : ℝ), (0 : ℝ)), (10, 0), (10, 2), (0, 2)] 2).2.2 -
        (find_head_tail [((0 : ℝ), (0 : ℝ)), (10, 0), (10, 2), (0, 2)] 2).1.2 ∧
      (((reorder_poly_edge 2 [((0 : ℝ), (0 : ℝ)), (10, 0), (10, 2), (0, 2)]).2.2.1 =
          (([((0 : ℝ), (0 : ℝ)), (10, 0), (10, 2), (0, 2)] : List Pt).rotate
            (find_head_tail [((0 : ℝ), (0 : ℝ)), (10, 0), (10, 2), (0, 2)] 2).1.2).take k ∧
        (reorder_poly_edge 2 [((0 : ℝ), (0 : ℝ)), (10, 0), (10, 2), (0, 2)]).2.2.2 =
          (([((0 : ℝ), (0 : ℝ)), (10, 0), (10, 2), (0, 2)] : List Pt).rotate
            (find_head_tail [((0 : ℝ), (0 : ℝ)), (10, 0), (10, 2), (0, 2)] 2).1.2).drop k) ∨
       ((reorder_poly_edge 2 [((0 : ℝ), (0 : ℝ)), (10, 0), (10, 2), (0, 2)]).2.2.2 =
          (([((0 : ℝ), (0 : ℝ)), (10, 0), (10, 2), (0, 2)] : List Pt).rotate
            (find_head_tail [((0 : ℝ), (0 : ℝ)), (10, 0), (10, 2), (0, 2)] 2).1.2).take k ∧
        (reorder_poly_edge 2 [((0 : ℝ), (0 : ℝ)), (10, 0), (10, 2), (0, 2)]).2.2.1 =
          (([((0 : ℝ), (0 : ℝ)), (10, 0), (10, 2), (0, 2)] : List Pt).rotate
            (find_head_tail [((0 : ℝ), (0 : ℝ)), (10, 0), (10, 2), (0, 2)] 2).1.2).drop k)) ∧
      (reorder_poly_edge 2 [((0 : ℝ), (0 : ℝ)), (10, 0), (10, 2), (0, 2)]).2.2.1.length +
          (reorder_poly_edge 2 [((0 : ℝ), (0 : ℝ)), (10, 0), (10, 2), (0, 2)]).2.2.2.length =
        ([((0 : ℝ), (0 : ℝ)), (10, 0), (10, 2), (0, 2)] : List Pt).length ∧
      ((reorder_poly_edge 2 [((0 : ℝ), (0 : ℝ)), (10, 0), (10, 2), (0, 2)]).2.2.1 ++
        (reorder_poly_edge 2 [((0 : ℝ), (0 : ℝ)), (10, 0), (10, 2), (0, 2)]).2.2.2).Perm
        [((0 : ℝ), (0 : ℝ)), (10, 0), (10, 2), (0, 2)] :=
  c10_sideline_partition 2 [((0 : ℝ), (0 : ℝ)), (10, 0), (10, 2), (0, 2)]
    (by norm_num)

/-! ## The 4-vertex branch on the concrete quadrangle -/

lemma fht_square :
    find_head_tail [((0 : ℝ), (0 : ℝ)), (10, 0), (10, 2), (0, 2)] 2 =
      ((3, 0), (1, 2)) := by
  rw [find_head_tail, if_neg (by norm_num)]
  rw [findHeadTailQuad]
  have e0 : ([((0 : ℝ), (0 : ℝ)), (10, 0), (10, 2), (0, 2)] : List Pt).getD 0
      (0, 0) = (0, 0) := rfl
  have e1 : ([((0 : ℝ), (0 : ℝ)), (10, 0), (10, 2), (0, 2)] : List Pt).getD 1
      (0, 0) = (10, 0) := rfl
  have e2 : ([((0 : ℝ), (0 : ℝ)), (10, 0), (10, 2), (0, 2)] : List Pt).getD 2
      (0, 0) = (10, 2) := rfl
  have e3 : ([((0 : ℝ), (0 : ℝ)), (10, 0), (10, 2), (0, 2)] : List Pt).getD 3
      (0, 0) = (0, 2) := rfl
  dsimp only
  rw [e0, e1, e2, e3]
  have hcond : vector_slope ((10, 0) - ((0 : ℝ), (0 : ℝ))) +
      vector_slope (((0 : ℝ), (2 : ℝ)) - (10, 2)) <
      vector_slope (((10 : ℝ), (2 : ℝ)) - (10, 0)) +
        vector_slope (((0 : ℝ), (0 : ℝ)) - (0, 2)) := by
    simp only [vector_slope, Prod.mk_sub_mk, eps]
    norm_num
  rw [if_pos hcond, if_pos hcond]
  have v1 : vnorm (((0 : ℝ), (2 : ℝ)) - ((0 : ℝ), (0 : ℝ))) = 2 := by
    rw [show (((0 : ℝ), (2 : ℝ)) - ((0 : ℝ), (0 : ℝ))) = ((0 : ℝ), (2 : ℝ)) by
      simp]
    rw [vnorm_mk, sqrt_num _ 2 (by norm_num) (by norm_num)]
  have v2 : vnorm (((10 : ℝ), (0 : ℝ)) - ((10 : ℝ), (2 : ℝ))) = 2 := by
    rw [show (((10 : ℝ), (0 : ℝ)) - ((10 : ℝ), (2 : ℝ))) = ((0 : ℝ), (-2 : ℝ)) by
      simp [Prod.mk_sub_mk]]
    rw [vnorm_mk, sqrt_num _ 2 (by norm_num) (by norm_num)]
  have v3 : vnorm (((0 : ℝ), (0 : ℝ)) - ((10 : ℝ), (0 : ℝ))) = 10 := by
    rw [show (((0 : ℝ), (0 : ℝ)) - ((10 : ℝ), (0 : ℝ))) = ((-10 : ℝ), (0 : ℝ)) by
      simp [Prod.mk_sub_mk]]
    rw [vnorm_mk, sqrt_num _ 10 (by norm_num) (by norm_num)]
  have v4 : vnorm (((10 : ℝ), (2 : ℝ)) - ((0 : ℝ), (2 : ℝ))) = 10 := by
    rw [show (((10 : ℝ), (2 : ℝ)) - ((0 : ℝ), (2 : ℝ))) = ((10 : ℝ), (0 : ℝ)) by
      simp [Prod.mk_sub_mk]]
    rw [vnorm_mk, sqrt_num _ 10 (by norm_num) (by norm_num)]
  dsimp only
  rw [e0, e1, e2, e3]
  rw [v1, v2, v3, v4]
  rw [if_neg (by norm_num)]

/-- C6 (counterexample): on the quadrangle `[(0,0),(10,0),(10,2),(0,2)]`
with `orientation_thr = 2`, `find_head_tail` returns `([3,0],[1,2])` (the
vertical edges `(0,2)-(0,0)` as head and `(10,0)-(10,2)` as tail), not
`([2,3],[0,1])` as claimed. -/
theorem c6_counterexample :
    find_head_tail [((0 : ℝ), (0 : ℝ)), (10, 0), (10, 2), (0, 2)] 2 =
        ((3, 0), (1, 2)) ∧
      (((3, 0), (1, 2)) : (ℕ × ℕ) × (ℕ × ℕ)) ≠ ((2, 3), (0, 1)) :=
  ⟨fht_square, by decide⟩

/-- C6 (amended): on 4-vertex polygons `find_head_tail` returns the
horizontal (smaller summed absolute slope) edge pair when the vertical
pair's total length exceeds the horizontal pair's total length times the
threshold, and the vertical pair otherwise; on the quadrangle
`[(0,0),(10,0),(10,2),(0,2)]` with threshold 2 it returns
head `[3,0]` (edge `(0,2)-(0,0)`) and tail `[1,2]` (edge `(10,0)-(10,2)`). -/
theorem c6_quad_orientation (pts : List Pt) (thr : ℝ)
    (hlen : ¬4 < pts.length) :
    ((edgePairLen pts (vertEdgePairInds pts) >
        edgePairLen pts (horizEdgePairInds pts) * thr →
      find_head_tail pts thr = horizEdgePairInds pts) ∧
     (¬(edgePairLen pts (vertEdgePairInds pts) >
        edgePairLen pts (horizEdgePairInds pts) * thr) →
      find_head_tail pts thr = vertEdgePairInds pts)) ∧
    find_head_tail [((0 : ℝ), (0 : ℝ)), (10, 0), (10, 2), (0, 2)] 2 =
      ((3, 0), (1, 2)) := by
  refine ⟨⟨?_, ?_⟩, fht_square⟩ <;>
    · intro h
      rw [find_head_tail, if_neg hlen, findHeadTailQuad]
      simp only [horizEdgePairInds, vertEdgePairInds] at h ⊢
      by_cases hcond : vector_slope (pts.getD 1 (0, 0) - pts.getD 0 (0, 0)) +
          vector_slope (pts.getD 3 (0, 0) - pts.getD 2 (0, 0)) <
          vector_slope (pts.getD 2 (0, 0) - pts.getD 1 (0, 0)) +
            vector_slope (pts.getD 0 (0, 0) - pts.getD 3 (0, 0))
      · simp only [if_pos hcond] at h ⊢
        simp only [edgePairLen] at h
        try dsimp only at h ⊢
        first
        | rw [if_pos h]
        | rw [if_neg h]
      · simp only [if_neg hcond] at h ⊢
        simp only [edgePairLen] at h
        try dsimp only at h ⊢
        first
        | rw [if_pos h]
        | rw [if_neg h]

/-- Witness for C6 at the concrete quadrangle. -/
theorem c6_witness :
    ((edgePairLen [((0 : ℝ), (0 : ℝ)), (10, 0), (10, 2), (0, 2)]
        (vertEdgePairInds [((0 : ℝ), (0 : ℝ)), (10, 0), (10, 2), (0, 2)]) >
        edgePairLen [((0 : ℝ), (0 : ℝ)), (10, 0), (10, 2), (0, 2)]
          (horizEdgePairInds [((0 : ℝ), (0 : ℝ)), (10, 0), (10, 2), (0, 2)]) * 2 →
      find_head_tail [((0 : ℝ), (0 : ℝ)), (10, 0), (10, 2), (0, 2)] 2 =
        horizEdgePairInds [((0 : ℝ), (0 : ℝ)), (10, 0), (10, 2), (0, 2)]) ∧
     (¬(edgePairLen [((0 : ℝ), (0 : ℝ)), (10, 0), (10, 2), (0, 2)]
        (vertEdgePairInds [((0 : ℝ), (0 : ℝ)), (10, 0), (10, 2), (0, 2)]) >
        edgePairLen [((0 : ℝ), (0 : ℝ)), (10, 0), (10, 2), (0, 2)]
          (horizEdgePairInds [((0 : ℝ), (0 : ℝ)), (10, 0), (10, 2), (0, 2)]) * 2) →
      find_head_tail [((0 : ℝ), (0 : ℝ)), (10, 0), (10, 2), (0, 2)] 2 =
        vertEdgePairInds [((0 : ℝ), (0 : ℝ)), (10, 0), (10, 2), (0, 2)])) ∧
    find_head_tail [((0 : ℝ), (0 : ℝ)), (10, 0), (10, 2), (0, 2)] 2 =
      ((3, 0), (1, 2)) :=
  c6_quad_orientation [((0 : ℝ), (0 : ℝ)), (10, 0), (10, 2), (0, 2)] 2
    (by norm_num)

/-! ## Success of the whole per-instance pipeline -/

lemma pairUp_isSome : ∀ (l : List ℝ), 2 ∣ l.length → ∃ prs, pairUp l = some prs
  | [], _ => ⟨[], rfl⟩
  | [_], h => by simp at h
  | x :: y :: rest, h => by
    have hr : 2 ∣ rest.length := by
      simp only [List.length_cons] at h
      omega
    obtain ⟨prs, hprs⟩ := pairUp_isSome rest hr
    exact ⟨(x, y) :: prs, by rw [pairUp, hprs]; rfl⟩

lemma alignAndTrim_lengths (step : ℝ) (r1 r2 : List Pt)
    (h : r1.length = r2.length) :
    (alignAndTrim step r1 r2).1.length = (alignAndTrim step r1 r2).2.1.length ∧
      (alignAndTrim step r1 r2).2.1.length =
        (alignAndTrim step r1 r2).2.2.length := by
  rw [alignAndTrim]
  split_ifs <;>
    constructor <;>
      simp [List.length_take, List.length_drop, List.length_reverse,
        List.length_zipWith, h] <;>
      omega

lemma resamplePointNum_toNat_pos (s1 s2 : List Pt) (step : ℝ) :
    1 ≤ (resamplePointNum s1 s2 step).toNat := by
  rw [resamplePointNum]
  have h := le_max_right (pyTrunc (((arclen s1 + arclen s2) / 2) / step)) 1
  omega

lemma resample_sidelines_isSome (s1 s2 : List Pt) (step : ℝ)
    (h1 : 2 ≤ s1.length) (h2 : 2 ≤ s2.length)
    (hn : (resamplePointNum s1 s2 step).toNat = 1 ∨
      (0 < arclen s1 ∧ 0 < arclen s2)) :
    ∃ r1 r2, resample_sidelines s1 s2 step = some (r1, r2) ∧
      r1.length = (resamplePointNum s1 s2 step).toNat + 1 ∧
      r2.length = (resamplePointNum s1 s2 step).toNat + 1 := by
  have hN1 := resamplePointNum_toNat_pos s1 s2 step
  obtain ⟨o1, ho1, hl1, _, _⟩ := c3_resample_line_count s1
    (resamplePointNum s1 s2 step).toNat h1 hN1
    (by rcases hn with h | h; exact Or.inl h; exact Or.inr h.1)
  obtain ⟨o2, ho2, hl2, _, _⟩ := c3_resample_line_count s2
    (resamplePointNum s1 s2 step).toNat h2 hN1
    (by rcases hn with h | h; exact Or.inl h; exact Or.inr h.2)
  refine ⟨o1, o2, ?_, hl1, hl2⟩
  rw [resample_sidelines, if_pos ⟨h1, h2⟩]
  simp only [ho1, ho2, Option.bind_eq_bind, Option.some_bind]
  rfl

lemma instanceLines_isSome (thr step : ℝ) (poly : List ℝ) (prs : List Pt)
    (hpair : pairUp poly = some prs)
    (h1 : 2 ≤ (reorder_poly_edge thr (toRealPts (toIntPoly prs))).2.2.1.length)
    (h2 : 2 ≤ (reorder_poly_edge thr (toRealPts (toIntPoly prs))).2.2.2.length)
    (hn : (resamplePointNum
        (reorder_poly_edge thr (toRealPts (toIntPoly prs))).2.2.1
        (reorder_poly_edge thr (toRealPts (toIntPoly prs))).2.2.2 step).toNat = 1 ∨
      (0 < arclen (reorder_poly_edge thr (toRealPts (toIntPoly prs))).2.2.1 ∧
       0 < arclen (reorder_poly_edge thr (toRealPts (toIntPoly prs))).2.2.2)) :
    ∃ tbc, instanceLines thr step poly = some tbc ∧
      tbc.1.length = tbc.2.1.length ∧ tbc.2.1.length = tbc.2.2.length := by
  obtain ⟨r1, r2, hrs, hl1, hl2⟩ :=
    resample_sidelines_isSome _ _ step h1 h2 hn
  refine ⟨alignAndTrim step r1 r2, ?_, alignAndTrim_lengths step r1 r2 (by omega)⟩
  rw [instanceLines]
  simp only [hpair, Option.bind_eq_bind, Option.some_bind]
  simp only [hrs, Option.some_bind]
  rfl

/-- C9 (amended): `generate_center_mask_attrib_maps` runs to completion on
every even-length polygon list whose instances additionally have
non-degenerate sidelines — each sideline produced by `reorder_poly_edge` has
at least 2 points and either the shared resample count is 1 or both
sidelines have positive arc length.  (Without the non-degeneracy proviso a
well-formed input can still crash, see the counterexample.) -/
theorem c9_no_internal_failure (thr step shrink : ℝ) (hw : ℕ × ℕ)
    (polys : List (List ℝ))
    (heven : ∀ poly ∈ polys, 2 ∣ poly.length ∧ 8 ≤ poly.length)
    (hside : ∀ poly ∈ polys, ∀ prs, pairUp poly = some prs →
      (2 ≤ (reorder_poly_edge thr (toRealPts (toIntPoly prs))).2.2.1.length ∧
       2 ≤ (reorder_poly_edge thr (toRealPts (toIntPoly prs))).2.2.2.length ∧
       ((resamplePointNum
           (reorder_poly_edge thr (toRealPts (toIntPoly prs))).2.2.1
           (reorder_poly_edge thr (toRealPts (toIntPoly prs))).2.2.2 step).toNat = 1 ∨
        (0 < arclen (reorder_poly_edge thr (toRealPts (toIntPoly prs))).2.2.1 ∧
         0 < arclen (reorder_poly_edge thr (toRealPts (toIntPoly prs))).2.2.2)))) :
    ∃ M, generate_center_mask_attrib_maps thr step shrink hw polys = some M := by
  rw [generate_center_mask_attrib_maps]
  have main : ∀ (ps : List (List ℝ)),
      (∀ poly ∈ ps, 2 ∣ poly.length ∧ 8 ≤ poly.length) →
      (∀ poly ∈ ps, ∀ prs, pairUp poly = some prs →
        (2 ≤ (reorder_poly_edge thr (toRealPts (toIntPoly prs))).2.2.1.length ∧
         2 ≤ (reorder_poly_edge thr (toRealPts (toIntPoly prs))).2.2.2.length ∧
         ((resamplePointNum
             (reorder_poly_edge thr (toRealPts (toIntPoly prs))).2.2.1
             (reorder_poly_edge thr (toRealPts (toIntPoly prs))).2.2.2 step).toNat = 1 ∨
          (0 < arclen (reorder_poly_edge thr (toRealPts (toIntPoly prs))).2.2.1 ∧
           0 < arclen (reorder_poly_edge thr (toRealPts (toIntPoly prs))).2.2.2)))) →
      ∀ M : Maps4, ∃ M', ps.foldlM
        (fun M poly => do
          let tbc ← instanceLines thr step poly
          draw_center_region_maps hw tbc.1 tbc.2.1 tbc.2.2 M shrink)
        M = some M' := by
    intro ps
    induction ps with
    | nil => exact fun _ _ M => ⟨M, rfl⟩
    | cons poly ps ih =>
      intro he hs M
      obtain ⟨prs, hprs⟩ := pairUp_isSome poly (he poly (List.mem_cons_self _ _)).1
      obtain ⟨hc1, hc2, hc3⟩ := hs poly (List.mem_cons_self _ _) prs hprs
      obtain ⟨tbc, hinst, hg1, hg2⟩ :=
        instanceLines_isSome thr step poly prs hprs hc1 hc2 hc3
      rw [List.foldlM_cons]
      simp only [hinst, Option.bind_eq_bind, Option.some_bind]
      rw [draw_center_region_maps, if_pos ⟨hg1, hg2⟩]
      simp only [Option.some_bind]
      exact ih (fun q hq => he q (List.mem_cons_of_mem _ hq))
        (fun q hq => hs q (List.mem_cons_of_mem _ hq)) _
  exact main polys heven hside zeroMaps

/-- Witness for the amended C9 at the empty polygon list. -/
theorem c9_witness :
    ∃ M, generate_center_mask_attrib_maps 2 4 (3 / 10) (8, 8) [] = some M :=
  c9_no_internal_failure 2 4 (3 / 10) (8, 8) [] (by simp) (by simp)

/-! ## A well-formed polygon on which the pipeline crashes -/

lemma fht_c9 :
    find_head_tail [((0 : ℝ), (10 : ℝ)), (0, 0), (0, 0), (20, 10)] 2 =
      ((0, 1), (2, 3)) := by
  rw [find_head_tail, if_neg (by norm_num)]
  rw [findHeadTailQuad]
  have e0 : ([((0 : ℝ), (10 : ℝ)), (0, 0), (0, 0), (20, 10)] : List Pt).getD 0
      (0, 0) = (0, 10) := rfl
  have e1 : ([((0 : ℝ), (10 : ℝ)), (0, 0), (0, 0), (20, 10)] : List Pt).getD 1
      (0, 0) = (0, 0) := rfl
  have e2 : ([((0 : ℝ), (10 : ℝ)), (0, 0), (0, 0), (20, 10)] : List Pt).getD 2
      (0, 0) = (0, 0) := rfl
  have e3 : ([((0 : ℝ), (10 : ℝ)), (0, 0), (0, 0), (20, 10)] : List Pt).getD 3
      (0, 0) = (20, 10) := rfl
  dsimp only
  rw [e0, e1, e2, e3]
  have hcond : ¬(vector_slope (((0 : ℝ), (0 : ℝ)) - ((0 : ℝ), (10 : ℝ))) +
      vector_slope (((20 : ℝ), (10 : ℝ)) - ((0 : ℝ), (0 : ℝ))) <
      vector_slope (((0 : ℝ), (0 : ℝ)) - ((0 : ℝ), (0 : ℝ))) +
        vector_slope (((0 : ℝ), (10 : ℝ)) - ((20 : ℝ), (10 : ℝ)))) := by
    simp only [vector_slope, Prod.mk_sub_mk, eps]
    norm_num
    positivity
  rw [if_neg hcond, if_neg hcond]
  dsimp only
  rw [e0, e1, e2, e3]
  have v1 : vnorm (((0 : ℝ), (10 : ℝ)) - ((0 : ℝ), (0 : ℝ))) = 10 := by
    rw [show (((0 : ℝ), (10 : ℝ)) - ((0 : ℝ), (0 : ℝ))) = ((0 : ℝ), (10 : ℝ)) by
      simp]
    rw [vnorm_mk, sqrt_num _ 10 (by norm_num) (by norm_num)]
  have v2 : vnorm (((0 : ℝ), (0 : ℝ)) - ((20 : ℝ), (10 : ℝ))) = Real.sqrt 500 := by
    rw [show (((0 : ℝ), (0 : ℝ)) - ((20 : ℝ), (10 : ℝ))) = ((-20 : ℝ), (-10 : ℝ)) by
      simp [Prod.mk_sub_mk]]
    rw [vnorm_mk]
    norm_num
  have v3 : vnorm (((20 : ℝ), (10 : ℝ)) - ((0 : ℝ), (10 : ℝ))) = 20 := by
    rw [show (((20 : ℝ), (10 : ℝ)) - ((0 : ℝ), (10 : ℝ))) = ((20 : ℝ), (0 : ℝ)) by
      simp [Prod.mk_sub_mk]]
    rw [vnorm_mk, sqrt_num _ 20 (by norm_num) (by norm_num)]
  have v4 : vnorm (((0 : ℝ), (0 : ℝ)) - ((0 : ℝ), (0 : ℝ))) = 0 := by
    rw [show (((0 : ℝ), (0 : ℝ)) - ((0 : ℝ), (0 : ℝ))) = ((0 : ℝ), (0 : ℝ)) by
      simp]
    rw [vnorm_mk]
    norm_num
  rw [v1, v2, v3, v4]
  have hsq : Real.sqrt 500 ≤ 30 := by
    rw [show (30 : ℝ) = Real.sqrt 900 by
      rw [sqrt_num 900 30 (by norm_num) (by norm_num)]]
    exact Real.sqrt_le_sqrt (by norm_num)
  rw [if_neg (by push_neg; nlinarith)]

lemma reorder_c9 :
    (reorder_poly_edge 2 [((0 : ℝ), (10 : ℝ)), (0, 0), (0, 0), (20, 10)]).2.2 =
      ([((0 : ℝ), (0 : ℝ)), (0, 0)], [((20 : ℝ), (10 : ℝ)), (0, 10)]) := by
  rw [reorder_poly_edge, fht_c9]
  dsimp only
  rw [if_neg (show ¬((3 : ℕ) < 1) by norm_num)]
  rw [show List.take (3 - 1) (List.drop 1
      ([((0 : ℝ), (10 : ℝ)), (0, 0), (0, 0), (20, 10)] ++
        [((0 : ℝ), (10 : ℝ)), (0, 0), (0, 0), (20, 10)])) =
      [((0 : ℝ), (0 : ℝ)), (0, 0)] from rfl]
  rw [show List.take
      (1 + ([((0 : ℝ), (10 : ℝ)), (0, 0), (0, 0), (20, 10)] : List Pt).length - 3)
      (List.drop 3 ([((0 : ℝ), (10 : ℝ)), (0, 0), (0, 0), (20, 10)] ++
        [((0 : ℝ), (10 : ℝ)), (0, 0), (0, 0), (20, 10)])) =
      [((20 : ℝ), (10 : ℝ)), (0, 10)] from rfl]
  rw [if_neg (by norm_num [listMean])]

lemma rs_c9 :
    resample_sidelines [((0 : ℝ), (0 : ℝ)), (0, 0)]
      [((20 : ℝ), (10 : ℝ)), (0, 10)] 4 = none := by
  have harc2 : arclen [((20 : ℝ), (10 : ℝ)), (0, 10)] = 20 := by
    rw [arclen_two_point]
    rw [show (((0 : ℝ), (10 : ℝ)) - ((20 : ℝ), (10 : ℝ))) = ((-20 : ℝ), (0 : ℝ)) by
      simp [Prod.mk_sub_mk]]
    rw [vnorm_mk, sqrt_num _ 20 (by norm_num) (by norm_num)]
  have hnum : resamplePointNum [((0 : ℝ), (0 : ℝ)), (0, 0)]
      [((20 : ℝ), (10 : ℝ)), (0, 10)] 4 = 2 := by
    rw [resamplePointNum, zero_pt_arclen, harc2]
    rw [pyTrunc, if_pos (by norm_num)]
    rw [show ⌊((0 : ℝ) + 20) / 2 / 4⌋ = 2 by
      rw [Int.floor_eq_iff] <;> norm_num]
    norm_num
  rw [resample_sidelines, if_pos (by norm_num)]
  simp only [hnum]
  rw [show ((2 : ℤ)).toNat = 2 from rfl]
  rw [resample_line_degenerate]
  rfl

lemma instanceLines_c9 :
    instanceLines 2 4 [0, 10, 0, 0, 0, 0, 20, 10] = none := by
  rw [instanceLines]
  have hpair : pairUp [(0 : ℝ), 10, 0, 0, 0, 0, 20, 10] =
      some [((0 : ℝ), (10 : ℝ)), (0, 0), (0, 0), (20, 10)] := rfl
  simp only [hpair, Option.bind_eq_bind, Option.some_bind]
  have hcast : toRealPts (toIntPoly
      [((0 : ℝ), (10 : ℝ)), (0, 0), (0, 0), (20, 10)]) =
      [((0 : ℝ), (10 : ℝ)), (0, 0), (0, 0), (20, 10)] := by
    simp only [toRealPts, toIntPoly, toInt32, pyTrunc, List.map_cons,
      List.map_nil]
    norm_num
  rw [hcast]
  have hs1 := congrArg Prod.fst reorder_c9
  have hs2 := congrArg Prod.snd reorder_c9
  dsimp only at hs1 hs2
  rw [hs1, hs2, rs_c9]
  rfl

/-- C9 (counterexample): the well-formed polygon
`[0,10, 0,0, 0,0, 20,10]` (8 coordinates, 4 vertices) makes
`generate_center_mask_attrib_maps` fail: one sideline is the degenerate
segment `[(0,0),(0,0)]` while the other has length 20, so the shared
resample count is 2 and `resample_line` indexes past the end of
`length_cumsum`. -/
theorem c9_counterexample :
    generate_center_mask_attrib_maps 2 4 (3 / 10) (32, 32)
      [[0, 10, 0, 0, 0, 0, 20, 10]] = none := by
  rw [generate_center_mask_attrib_maps, List.foldlM_cons]
  rw [show ((do
      let tbc ← instanceLines 2 4 [0, 10, 0, 0, 0, 0, 20, 10]
      draw_center_region_maps (32, 32) tbc.1 tbc.2.1 tbc.2.2 zeroMaps
        (3 / 10)) : Option Maps4) = none by
    rw [instanceLines_c9]
    rfl]
  rfl

/-! ## The dart instance: concrete evaluation of the whole pipeline -/

lemma pairUp_dart : pairUp dartPoly = some dartPts := rfl

lemma cast_dart : toRealPts (toIntPoly dartPts) = dartPts := by
  simp only [dartPts, toRealPts, toIntPoly, toInt32, pyTrunc, List.map_cons,
    List.map_nil]
  norm_num

lemma fht_dart : find_head_tail dartPts 2 = ((3, 0), (1, 2)) := by
  rw [show dartPts = [((0 : ℝ), (0 : ℝ)), (300, 0), (300, 120), (240, 30)] from rfl]
  rw [find_head_tail, if_neg (by norm_num)]
  rw [findHeadTailQuad]
  have e0 : ([((0 : ℝ), (0 : ℝ)), (300, 0), (300, 120), (240, 30)] : List Pt).getD 0
      (0, 0) = (0, 0) := rfl
  have e1 : ([((0 : ℝ), (0 : ℝ)), (300, 0), (300, 120), (240, 30)] : List Pt).getD 1
      (0, 0) = (300, 0) := rfl
  have e2 : ([((0 : ℝ), (0 : ℝ)), (300, 0), (300, 120), (240, 30)] : List Pt).getD 2
      (0, 0) = (300, 120) := rfl
  have e3 : ([((0 : ℝ), (0 : ℝ)), (300, 0), (300, 120), (240, 30)] : List Pt).getD 3
      (0, 0) = (240, 30) := rfl
  dsimp only
  rw [e0, e1, e2, e3]
  have hcond : vector_slope (((300 : ℝ), (0 : ℝ)) - ((0 : ℝ), (0 : ℝ))) +
      vector_slope (((240 : ℝ), (30 : ℝ)) - ((300 : ℝ), (120 : ℝ))) <
      vector_slope (((300 : ℝ), (120 : ℝ)) - ((300 : ℝ), (0 : ℝ))) +
        vector_slope (((0 : ℝ), (0 : ℝ)) - ((240 : ℝ), (30 : ℝ))) := by
    have h1 : vector_slope (((300 : ℝ), (0 : ℝ)) - ((0 : ℝ), (0 : ℝ))) = 0 := by
      simp [vector_slope, Prod.mk_sub_mk, eps]
    have h2 : vector_slope (((240 : ℝ), (30 : ℝ)) - ((300 : ℝ), (120 : ℝ))) ≤ 2 := by
      simp only [vector_slope, Prod.mk_sub_mk, eps]
      rw [abs_le]
      norm_num
    have h3 : (0 : ℝ) ≤ vector_slope (((0 : ℝ), (0 : ℝ)) - ((240 : ℝ), (30 : ℝ))) :=
      abs_nonneg _
    have h4 : vector_slope (((300 : ℝ), (120 : ℝ)) - ((300 : ℝ), (0 : ℝ))) =
        12000000000 := by
      simp only [vector_slope, Prod.mk_sub_mk, eps]
      rw [abs_of_nonneg (by norm_num)]
      norm_num
    linarith
  rw [if_pos hcond, if_pos hcond]
  dsimp only
  rw [e0, e1, e2, e3]
  have v1 : vnorm (((240 : ℝ), (30 : ℝ)) - ((0 : ℝ), (0 : ℝ))) =
      Real.sqrt 58500 := by
    rw [show (((240 : ℝ), (30 : ℝ)) - ((0 : ℝ), (0 : ℝ))) = ((240 : ℝ), (30 : ℝ)) by
      simp]
    rw [vnorm_mk]
    norm_num
  have v2 : vnorm (((300 : ℝ), (0 : ℝ)) - ((300 : ℝ), (120 : ℝ))) = 120 := by
    rw [show (((300 : ℝ), (0 : ℝ)) - ((300 : ℝ), (120 : ℝ))) =
        ((0 : ℝ), (-120 : ℝ)) by simp [Prod.mk_sub_mk]]
    rw [vnorm_mk, sqrt_num _ 120 (by norm_num) (by norm_num)]
  have v3 : vnorm (((0 : ℝ), (0 : ℝ)) - ((300 : ℝ), (0 : ℝ))) = 300 := by
    rw [show (((0 : ℝ), (0 : ℝ)) - ((300 : ℝ), (0 : ℝ))) = ((-300 : ℝ), (0 : ℝ)) by
      simp [Prod.mk_sub_mk]]
    rw [vnorm_mk, sqrt_num _ 300 (by norm_num) (by norm_num)]
  have v4 : vnorm (((300 : ℝ), (120 : ℝ)) - ((240 : ℝ), (30 : ℝ))) =
      Real.sqrt 11700 := by
    rw [show (((300 : ℝ), (120 : ℝ)) - ((240 : ℝ), (30 : ℝ))) =
        ((60 : ℝ), (90 : ℝ)) by rw [Prod.mk_sub_mk]; norm_num]
    rw [vnorm_mk]
    norm_num
  rw [v1, v2, v3, v4]
  have hs1 : Real.sqrt 58500 ≤ 242 := by
    rw [show (242 : ℝ) = Real.sqrt 58564 by
      rw [sqrt_num 58564 242 (by norm_num) (by norm_num)]]
    exact Real.sqrt_le_sqrt (by norm_num)
  have hs2 : (0 : ℝ) ≤ Real.sqrt 11700 := Real.sqrt_nonneg _
  rw [if_neg (by push_neg; linarith)]

lemma reorder_dart :
    (reorder_poly_edge 2 dartPts).2.2 =
      ([((0 : ℝ), (0 : ℝ)), (300, 0)], [((300 : ℝ), (120 : ℝ)), (240, 30)]) := by
  rw [reorder_poly_edge, fht_dart]
  rw [show dartPts = [((0 : ℝ), (0 : ℝ)), (300, 0), (300, 120), (240, 30)] from rfl]
  dsimp only
  rw [if_neg (show ¬((2 : ℕ) < 1) by norm_num)]
  rw [show List.take (2 - 0) (List.drop 0
      ([((0 : ℝ), (0 : ℝ)), (300, 0), (300, 120), (240, 30)] ++
        [((0 : ℝ), (0 : ℝ)), (300, 0), (300, 120), (240, 30)])) =
      [((0 : ℝ), (0 : ℝ)), (300, 0)] from rfl]
  rw [show List.take
      (0 + ([((0 : ℝ), (0 : ℝ)), (300, 0), (300, 120), (240, 30)] : List Pt).length - 2)
      (List.drop 2 ([((0 : ℝ), (0 : ℝ)), (300, 0), (300, 120), (240, 30)] ++
        [((0 : ℝ), (0 : ℝ)), (300, 0), (300, 120), (240, 30)])) =
      [((300 : ℝ), (120 : ℝ)), (240, 30)] from rfl]
  rw [if_neg (by norm_num [listMean])]

lemma vnorm_dart_top : vnorm (((300 : ℝ), (0 : ℝ)) - ((0 : ℝ), (0 : ℝ))) = 300 := by
  rw [show (((300 : ℝ), (0 : ℝ)) - ((0 : ℝ), (0 : ℝ))) = ((300 : ℝ), (0 : ℝ)) by simp]
  rw [vnorm_mk, sqrt_num _ 300 (by norm_num) (by norm_num)]

lemma vnorm_dart_bot : vnorm (((240 : ℝ), (30 : ℝ)) - ((300 : ℝ), (120 : ℝ))) =
    Real.sqrt 11700 := by
  rw [show (((240 : ℝ), (30 : ℝ)) - ((300 : ℝ), (120 : ℝ))) =
      ((-60 : ℝ), (-90 : ℝ)) by rw [Prod.mk_sub_mk]; norm_num]
  rw [vnorm_mk]
  norm_num

lemma sqrt11700_lo : (108 : ℝ) ≤ Real.sqrt 11700 := by
  rw [show (108 : ℝ) = Real.sqrt 11664 by
    rw [sqrt_num 11664 108 (by norm_num) (by norm_num)]]
  exact Real.sqrt_le_sqrt (by norm_num)

lemma sqrt11700_hi : Real.sqrt 11700 ≤ 115 := by
  rw [show (115 : ℝ) = Real.sqrt 13225 by
    rw [sqrt_num 13225 115 (by norm_num) (by norm_num)]]
  exact Real.sqrt_le_sqrt (by norm_num)

lemma arclen_dart_top : arclen [((0 : ℝ), (0 : ℝ)), (300, 0)] = 300 := by
  rw [arclen_two_point, vnorm_dart_top]

lemma arclen_dart_bot : arclen [((300 : ℝ), (120 : ℝ)), (240, 30)] =
    Real.sqrt 11700 := by
  rw [arclen_two_point, vnorm_dart_bot]

lemma rpn_dart : resamplePointNum [((0 : ℝ), (0 : ℝ)), (300, 0)]
    [((300 : ℝ), (120 : ℝ)), (240, 30)] 4 = 51 := by
  have hlo := sqrt11700_lo
  have hhi := sqrt11700_hi
  rw [resamplePointNum, arclen_dart_top, arclen_dart_bot]
  rw [pyTrunc, if_pos (by positivity)]
  rw [show ⌊((300 : ℝ) + Real.sqrt 11700) / 2 / 4⌋ = 51 by
    rw [Int.floor_eq_iff]
    constructor
    · push_cast
      linarith
    · push_cast
      linarith]
  norm_num

lemma rl_dart_top : resample_line [((0 : ℝ), (0 : ℝ)), (300, 0)] 51 =
    some dartTop := by
  rw [resample_line_two_point _ _ 51 (by norm_num) (by rw [vnorm_dart_top]; norm_num)]
  simp only [dartTop, show ((51 : ℕ) : ℝ) + eps = dartD from by norm_num [dartD],
    show (51 - 1 : ℕ) = 50 from rfl]

lemma rl_dart_bot : resample_line [((300 : ℝ), (120 : ℝ)), (240, 30)] 51 =
    some dartBot := by
  have hpos : 0 < vnorm (((240 : ℝ), (30 : ℝ)) - ((300 : ℝ), (120 : ℝ))) := by
    rw [vnorm_dart_bot]
    linarith [sqrt11700_lo]
  rw [resample_line_two_point _ _ 51 (by norm_num) hpos]
  simp only [dartBot, show ((51 : ℕ) : ℝ) + eps = dartD from by norm_num [dartD],
    show (51 - 1 : ℕ) = 50 from rfl]

lemma rs_dart : resample_sidelines [((0 : ℝ), (0 : ℝ)), (300, 0)]
    [((300 : ℝ), (120 : ℝ)), (240, 30)] 4 = some (dartTop, dartBot) := by
  rw [resample_sidelines, if_pos (by norm_num)]
  simp only [rpn_dart]
  rw [show ((51 : ℤ)).toNat = 51 from rfl]
  simp only [rl_dart_top, rl_dart_bot, Option.bind_eq_bind, Option.some_bind]
  rfl

lemma dartTop_length : dartTop.length = 52 := by
  simp [dartTop]

lemma dartBot_length : dartBot.length = 52 := by
  simp [dartBot]

lemma headD_eq_getD {α : Type} (l : List α) (d : α) : l.headD d = l.getD 0 d := by
  cases l <;> rfl

lemma getD_zipWith (f : Pt → Pt → Pt) (l1 l2 : List Pt) (i : ℕ)
    (h1 : i < l1.length) (h2 : i < l2.length) (d : Pt) :
    (List.zipWith f l1 l2).getD i d = f (l1.getD i d) (l2.getD i d) := by
  have hz : i < (List.zipWith f l1 l2).length := by
    rw [List.length_zipWith]
    omega
  rw [getD_eq_getElem _ _ hz, getD_eq_getElem _ _ h1, getD_eq_getElem _ _ h2,
    List.getElem_zipWith]

lemma dartTop_getD_mid (j : ℕ) (h1 : 1 ≤ j) (h2 : j ≤ 50) :
    dartTop.getD j (0, 0) = ((j : ℝ) * 300 / dartD, 0) := by
  obtain ⟨k, rfl⟩ : ∃ k, j = k + 1 := ⟨j - 1, by omega⟩
  rw [dartTop, List.getD_cons_succ]
  have hk : k < ((List.range' 1 50).map fun i : ℕ =>
      ((0 : ℝ), (0 : ℝ)) + ((i : ℝ) / dartD) •
        (((300 : ℝ), (0 : ℝ)) - ((0 : ℝ), (0 : ℝ)))).length := by
    simp
    omega
  rw [List.getD_append _ _ _ _ hk]
  rw [getD_eq_getElem _ _ hk, List.getElem_map, List.getElem_range']
  rw [Prod.mk_sub_mk, Prod.smul_mk, smul_eq_mul, smul_eq_mul, Prod.mk_add_mk,
    Prod.mk.injEq]
  constructor <;> (push_cast; ring)

lemma dartBot_getD_mid (j : ℕ) (h1 : 1 ≤ j) (h2 : j ≤ 50) :
    dartBot.getD j (0, 0) =
      (300 - (j : ℝ) * 60 / dartD, 120 - (j : ℝ) * 90 / dartD) := by
  obtain ⟨k, rfl⟩ : ∃ k, j = k + 1 := ⟨j - 1, by omega⟩
  rw [dartBot, List.getD_cons_succ]
  have hk : k < ((List.range' 1 50).map fun i : ℕ =>
      ((300 : ℝ), (120 : ℝ)) + ((i : ℝ) / dartD) •
        (((240 : ℝ), (30 : ℝ)) - ((300 : ℝ), (120 : ℝ)))).length := by
    simp
    omega
  rw [List.getD_append _ _ _ _ hk]
  rw [getD_eq_getElem _ _ hk, List.getElem_map, List.getElem_range']
  rw [Prod.mk_sub_mk, Prod.smul_mk, smul_eq_mul, smul_eq_mul, Prod.mk_add_mk,
    Prod.mk.injEq]
  constructor <;> (push_cast; ring)

lemma dartTop_getD_0 : dartTop.getD 0 (0, 0) = (0, 0) := rfl

lemma dartBot_getD_0 : dartBot.getD 0 (0, 0) = (300, 120) := rfl

lemma dartTop_getD_51 : dartTop.getD 51 (0, 0) = (300, 0) := by
  rw [dartTop, List.getD_cons_succ]
  rw [List.getD_append_right _ _ _ _ (by simp)]
  simp

lemma dartBot_getD_51 : dartBot.getD 51 (0, 0) = (240, 30) := by
  rw [dartBot, List.getD_cons_succ]
  rw [List.getD_append_right _ _ _ _ (by simp)]
  simp

lemma dartBotRev_getD (j : ℕ) (h : j < 52) :
    dartBot.reverse.getD j (0, 0) = dartBot.getD (51 - j) (0, 0) := by
  rw [getD_reverse _ _ (by rw [dartBot_length]; omega), dartBot_length]

lemma sqrt58500_lo : (241 : ℝ) ≤ Real.sqrt 58500 := by
  rw [show (241 : ℝ) = Real.sqrt 58081 by
    rw [sqrt_num 58081 241 (by norm_num) (by norm_num)]]
  exact Real.sqrt_le_sqrt (by norm_num)

lemma sqrt58500_hi : Real.sqrt 58500 ≤ 242 := by
  rw [show (242 : ℝ) = Real.sqrt 58564 by
    rw [sqrt_num 58564 242 (by norm_num) (by norm_num)]]
  exact Real.sqrt_le_sqrt (by norm_num)

lemma vector_slope_mk (x y : ℝ) : vector_slope (x, y) = |y / (x + eps)| := rfl

lemma dartCenter_getD (j : ℕ) (h : j < 52) :
    (List.zipWith (fun a b => ((2 : ℝ)⁻¹) • (a + b)) dartTop
        dartBot.reverse).getD j (0, 0) =
      ((2 : ℝ)⁻¹) • (dartTop.getD j (0, 0) + dartBot.getD (51 - j) (0, 0)) := by
  rw [getD_zipWith _ _ _ j (by rw [dartTop_length]; omega)
    (by rw [List.length_reverse, dartBot_length]; omega), dartBotRev_getD j h]

lemma dart_align : alignAndTrim 4 dartTop dartBot = (dartT, dartB, dartC) := by
  have hlen : (List.zipWith (fun a b => ((2 : ℝ)⁻¹) • (a + b)) dartTop
      dartBot.reverse).length = 52 := by
    rw [List.length_zipWith, dartTop_length, List.length_reverse, dartBot_length]
    norm_num
  have hhead : (List.zipWith (fun a b => ((2 : ℝ)⁻¹) • (a + b)) dartTop
      dartBot.reverse).headD (0, 0) = ((120 : ℝ), (15 : ℝ)) := by
    rw [headD_eq_getD, dartCenter_getD 0 (by norm_num), dartTop_getD_0]
    rw [show (51 - 0 : ℕ) = 51 from rfl, dartBot_getD_51]
    rw [Prod.mk_add_mk, Prod.smul_mk, smul_eq_mul, smul_eq_mul]
    norm_num
  have hlast : (List.zipWith (fun a b => ((2 : ℝ)⁻¹) • (a + b)) dartTop
      dartBot.reverse).getLastD (0, 0) = ((300 : ℝ), (60 : ℝ)) := by
    have hne : (List.zipWith (fun a b => ((2 : ℝ)⁻¹) • (a + b)) dartTop
        dartBot.reverse) ≠ [] := by
      intro hnil
      rw [hnil] at hlen
      simp at hlen
    rw [← getD_last_eq _ _ hne, hlen]
    rw [show (52 - 1 : ℕ) = 51 from rfl]
    rw [dartCenter_getD 51 (by norm_num), dartTop_getD_51]
    rw [show (51 - 51 : ℕ) = 0 from rfl, dartBot_getD_0]
    rw [Prod.mk_add_mk, Prod.smul_mk, smul_eq_mul, smul_eq_mul]
    norm_num
  have htophead : dartTop.headD (0, 0) = ((0 : ℝ), (0 : ℝ)) := rfl
  have hbothead : dartBot.reverse.headD (0, 0) = ((240 : ℝ), (30 : ℝ)) := by
    rw [headD_eq_getD, dartBotRev_getD 0 (by norm_num),
      show (51 - 0 : ℕ) = 51 from rfl, dartBot_getD_51]
  have htoplast : dartTop.getLastD (0, 0) = ((300 : ℝ), (0 : ℝ)) := by
    have hne : dartTop ≠ [] := by
      rw [dartTop]
      simp
    rw [← getD_last_eq _ _ hne, dartTop_length, show (52 - 1 : ℕ) = 51 from rfl,
      dartTop_getD_51]
  have hbotlast : dartBot.reverse.getLastD (0, 0) = ((300 : ℝ), (120 : ℝ)) := by
    have hne : dartBot.reverse ≠ [] := by
      rw [dartBot]
      simp
    rw [← getD_last_eq _ _ hne, List.length_reverse, dartBot_length,
      show (52 - 1 : ℕ) = 51 from rfl, dartBotRev_getD 51 (by norm_num),
      show (51 - 51 : ℕ) = 0 from rfl, dartBot_getD_0]
  have hslope : ¬(vector_slope ((180 : ℝ), (45 : ℝ)) > 9 / 10) := by
    rw [vector_slope_mk, abs_of_nonneg (by norm_num [eps])]
    norm_num [eps]
  rw [alignAndTrim]
  try dsimp only
  rw [hhead, hlast]
  rw [show ((300 : ℝ), (60 : ℝ)) - ((120 : ℝ), (15 : ℝ)) = ((180 : ℝ), (45 : ℝ)) by
    rw [Prod.mk_sub_mk]; norm_num]
  rw [if_neg hslope]
  dsimp only
  rw [show decide ((180 : ℝ) < 0) = false from decide_eq_false (by norm_num)]
  simp only [Bool.false_eq_true, if_false]
  rw [htophead, hbothead, htoplast, hbotlast]
  rw [show ((0 : ℝ), (0 : ℝ)) - ((240 : ℝ), (30 : ℝ)) = ((-240 : ℝ), (-30 : ℝ)) by
    rw [Prod.mk_sub_mk]; norm_num]
  rw [show ((300 : ℝ), (0 : ℝ)) - ((300 : ℝ), (120 : ℝ)) = ((0 : ℝ), (-120 : ℝ)) by
    rw [Prod.mk_sub_mk]; norm_num]
  rw [show vnorm ((-240 : ℝ), (-30 : ℝ)) = Real.sqrt 58500 by
    rw [vnorm_mk]; norm_num]
  rw [show vnorm ((0 : ℝ), (-120 : ℝ)) = 120 by
    rw [vnorm_mk, sqrt_num _ 120 (by norm_num) (by norm_num)]]
  rw [show ⌊Real.sqrt 58500 / 4 / 4⌋ = 15 by
    rw [Int.floor_eq_iff]
    constructor
    · push_cast
      linarith [sqrt58500_lo]
    · push_cast
      linarith [sqrt58500_hi]]
  rw [show ⌊(120 : ℝ) / 4 / 4⌋ = 7 by
    rw [Int.floor_eq_iff]
    constructor <;> norm_num]
  rw [show pyTrunc ((15 : ℤ) : ℝ) = 15 by
    rw [pyTrunc, if_pos (by norm_num)]
    norm_num]
  rw [show pyTrunc ((7 : ℤ) : ℝ) = 7 by
    rw [pyTrunc, if_pos (by norm_num)]
    norm_num]
  rw [hlen, dartTop_length, List.length_reverse, dartBot_length]
  rw [if_pos (by norm_num)]
  rw [show ((15 : ℤ)).toNat = 15 from rfl, show ((7 : ℤ)).toNat = 7 from rfl]
  rw [show (52 - 7 - 15 : ℕ) = 30 from rfl]
  rfl

lemma dart_instanceLines : instanceLines 2 4 dartPoly = some (dartT, dartB, dartC) := by
  rw [instanceLines]
  simp only [pairUp_dart, Option.bind_eq_bind, Option.some_bind]
  rw [cast_dart]
  have hs1 := congrArg Prod.fst reorder_dart
  have hs2 := congrArg Prod.snd reorder_dart
  dsimp only at hs1 hs2
  rw [hs1, hs2, rs_dart]
  simp only [Option.some_bind]
  try dsimp only
  rw [dart_align]
  rfl

lemma dartT_length : dartT.length = 30 := by
  rw [dartT, List.length_take, List.length_drop, dartTop_length]
  omega

lemma dartB_length : dartB.length = 30 := by
  rw [dartB, List.length_take, List.length_drop, List.length_reverse, dartBot_length]
  omega

lemma dartC_length : dartC.length = 30 := by
  rw [dartC, List.length_take, List.length_drop, List.length_zipWith,
    dartTop_length, List.length_reverse, dartBot_length]
  omega

lemma allQuads_dart :
    allQuads 2 4 (3 / 10) [dartPoly] =
      some (quadListOf dartT dartB dartC (3 / 10)) := by
  rw [allQuads, List.foldlM_cons]
  rw [show ((do
      let tbc ← instanceLines 2 4 dartPoly
      if tbc.1.length = tbc.2.1.length ∧ tbc.2.1.length = tbc.2.2.length then
        pure (([] : List QuadVal) ++ quadListOf tbc.1 tbc.2.1 tbc.2.2 (3 / 10))
      else none) : Option (List QuadVal)) =
      some (quadListOf dartT dartB dartC (3 / 10)) by
    rw [dart_instanceLines]
    simp only [Option.bind_eq_bind, Option.some_bind]
    rw [if_pos ⟨by rw [dartT_length, dartB_length], by rw [dartB_length, dartC_length]⟩]
    rfl]
  rfl

lemma generate_dart :
    generate_center_mask_attrib_maps 2 4 (3 / 10) (130, 400) [dartPoly] =
      some (paintList (130, 400) (quadListOf dartT dartB dartC (3 / 10)) zeroMaps) := by
  rw [generate_eq_paintList, allQuads_dart]
  rfl

lemma dartT_getD_5 : dartT.getD 5 (0, 0) = ((6000 / dartD : ℝ), (0 : ℝ)) := by
  rw [dartT, getD_take_lt _ _ _ (by norm_num), getD_drop]
  rw [show (15 + 5 : ℕ) = 20 from rfl, dartTop_getD_mid 20 (by norm_num) (by norm_num)]
  rw [Prod.mk.injEq]
  exact ⟨by push_cast; ring, rfl⟩

lemma dartT_getD_6 : dartT.getD 6 (0, 0) = ((6300 / dartD : ℝ), (0 : ℝ)) := by
  rw [dartT, getD_take_lt _ _ _ (by norm_num), getD_drop]
  rw [show (15 + 6 : ℕ) = 21 from rfl, dartTop_getD_mid 21 (by norm_num) (by norm_num)]
  rw [Prod.mk.injEq]
  exact ⟨by push_cast; ring, rfl⟩

lemma dartB_getD_5 : dartB.getD 5 (0, 0) =
    ((300 - 1860 / dartD : ℝ), (120 - 2790 / dartD : ℝ)) := by
  rw [dartB, getD_take_lt _ _ _ (by norm_num), getD_drop]
  rw [show (15 + 5 : ℕ) = 20 from rfl, dartBotRev_getD 20 (by norm_num)]
  rw [show (51 - 20 : ℕ) = 31 from rfl, dartBot_getD_mid 31 (by norm_num) (by norm_num)]
  rw [Prod.mk.injEq]
  exact ⟨by push_cast; ring, by push_cast; ring⟩

lemma dartB_getD_6 : dartB.getD 6 (0, 0) =
    ((300 - 1800 / dartD : ℝ), (120 - 2700 / dartD : ℝ)) := by
  rw [dartB, getD_take_lt _ _ _ (by norm_num), getD_drop]
  rw [show (15 + 6 : ℕ) = 21 from rfl, dartBotRev_getD 21 (by norm_num)]
  rw [show (51 - 21 : ℕ) = 30 from rfl, dartBot_getD_mid 30 (by norm_num) (by norm_num)]
  rw [Prod.mk.injEq]
  exact ⟨by push_cast; ring, by push_cast; ring⟩

lemma dartC_getD_5 : dartC.getD 5 (0, 0) =
    ((150 + 2070 / dartD : ℝ), (60 - 1395 / dartD : ℝ)) := by
  rw [dartC, getD_take_lt _ _ _ (by norm_num), getD_drop]
  rw [show (15 + 5 : ℕ) = 20 from rfl, dartCenter_getD 20 (by norm_num)]
  rw [dartTop_getD_mid 20 (by norm_num) (by norm_num)]
  rw [show (51 - 20 : ℕ) = 31 from rfl, dartBot_getD_mid 31 (by norm_num) (by norm_num)]
  rw [Prod.mk_add_mk, Prod.smul_mk, smul_eq_mul, smul_eq_mul, Prod.mk.injEq]
  exact ⟨by push_cast; ring, by push_cast; ring⟩

lemma dartC_getD_6 : dartC.getD 6 (0, 0) =
    ((150 + 2250 / dartD : ℝ), (60 - 1350 / dartD : ℝ)) := by
  rw [dartC, getD_take_lt _ _ _ (by norm_num), getD_drop]
  rw [show (15 + 6 : ℕ) = 21 from rfl, dartCenter_getD 21 (by norm_num)]
  rw [dartTop_getD_mid 21 (by norm_num) (by norm_num)]
  rw [show (51 - 21 : ℕ) = 30 from rfl, dartBot_getD_mid 30 (by norm_num) (by norm_num)]
  rw [Prod.mk_add_mk, Prod.smul_mk, smul_eq_mul, smul_eq_mul, Prod.mk.injEq]
  exact ⟨by push_cast; ring, by push_cast; ring⟩

lemma pyTrunc_eq_of_bounds (x : ℝ) (z : ℤ) (h0 : 0 ≤ x) (h1 : (z : ℝ) ≤ x)
    (h2 : x < (z : ℝ) + 1) : pyTrunc x = z := by
  rw [pyTrunc, if_pos h0, Int.floor_eq_iff]
  exact ⟨h1, by push_cast; linarith⟩

lemma dart_quad5 :
    (quadOfSeg dartT dartB dartC (3 / 10) 5).quad =
      [((168 : ℤ), (22 : ℤ)), (172, 23), (215, 43), (212, 42)] := by
  simp only [quadOfSeg, realCornersOfSeg]
  try dsimp only
  rw [show (5 + 1 : ℕ) = 6 from rfl]
  rw [dartT_getD_5, dartT_getD_6, dartB_getD_5, dartB_getD_6, dartC_getD_5,
    dartC_getD_6]
  simp only [Prod.mk_sub_mk, Prod.smul_mk, smul_eq_mul, Prod.mk_add_mk]
  simp only [List.map_cons, List.map_nil, toInt32]
  try dsimp only
  simp only [List.cons.injEq, Prod.mk.injEq]
  refine ⟨⟨?_, ?_⟩, ⟨?_, ?_⟩, ⟨?_, ?_⟩, ⟨?_, ?_⟩, trivial⟩ <;>
    (apply pyTrunc_eq_of_bounds <;> (simp only [dartD, eps]; norm_num))

lemma paintList_mask_covered (hw : ℕ × ℕ) (L : List QuadVal) (p : ℤ × ℤ)
    (h : ∃ qv ∈ L, (inPoly qv.quad p && inBounds hw p) = true) :
    (paintList hw L zeroMaps).mask p = 1 := by
  have h1 := (paintList_proj hw L zeroMaps p).1
  cases hfind : L.reverse.find? (fun qv => inPoly qv.quad p && inBounds hw p) with
  | some x =>
    rw [h1, hfind]
  | none =>
    exfalso
    obtain ⟨qv, hm, hp⟩ := h
    exact List.find?_eq_none.mp hfind qv (List.mem_reverse.mpr hm) hp

lemma dart_quad5_mem : quadOfSeg dartT dartB dartC (3 / 10) 5 ∈
    quadListOf dartT dartB dartC (3 / 10) := by
  rw [quadListOf, dartC_length]
  exact List.mem_map_of_mem _ (List.mem_range.mpr (by norm_num))

lemma dart_quad5_cover :
    (inPoly [((168 : ℤ), (22 : ℤ)), (172, 23), (215, 43), (212, 42)] (191, 32) &&
      inBounds (130, 400) (191, 32)) = true := by decide

lemma dart_poly_int : toIntPoly dartPts =
    [((0 : ℤ), (0 : ℤ)), (300, 0), (300, 120), (240, 30)] := by
  simp only [dartPts, toIntPoly, toInt32, List.map_cons, List.map_nil, pyTrunc]
  norm_num

lemma dart_outside :
    inPoly [((0 : ℤ), (0 : ℤ)), (300, 0), (300, 120), (240, 30)] (191, 32) =
      false := by decide

lemma text_mask_dart :
    generate_text_region_mask (130, 400) [dartPoly] =
      some (paint (130, 400) (toIntPoly dartPts) 1 (fun _ => 0)) := by
  rw [generate_text_region_mask, List.foldlM_cons]
  rw [show ((do
      let prs ← pairUp dartPoly
      pure (paint (130, 400) (toIntPoly prs) 1 (fun _ => (0 : ℝ)))) :
        Option ((ℤ × ℤ) → ℝ)) =
      some (paint (130, 400) (toIntPoly dartPts) 1 (fun _ => 0)) by
    rw [pairUp_dart]
    rfl]
  rfl

/-- C7 (counterexample): on the concave dart `(0,0),(300,0),(300,120),(240,30)`
with `orientation_thr = 2`, `resample_step = 4`,
`center_region_shrink_ratio = 0.3` and image size `130 × 400`, the pixel
`(191, 32)` is painted `1` in the centre-region mask (it lies in the
centre-region quad of segment 5) but is `0` in the text-region mask (it lies
outside the filled dart polygon, beyond the reflex vertex): the claimed
containment of the centre region in the text region fails. -/
theorem c7_counterexample :
    ∃ M T, generate_center_mask_attrib_maps 2 4 (3 / 10) (130, 400) [dartPoly] =
        some M ∧
      generate_text_region_mask (130, 400) [dartPoly] = some T ∧
      M.mask (191, 32) = 1 ∧ T (191, 32) = 0 := by
  refine ⟨_, _, generate_dart, text_mask_dart, ?_, ?_⟩
  · apply paintList_mask_covered
    refine ⟨quadOfSeg dartT dartB dartC (3 / 10) 5, dart_quad5_mem, ?_⟩
    rw [dart_quad5]
    exact dart_quad5_cover
  · simp only [paint, dart_poly_int, dart_outside, Bool.false_and,
      Bool.false_eq_true, if_false]

/-! ## Convex-hull containment of the centre-region corners -/

lemma advance_out (cums : List ℝ) (c : ℝ) :
    ∀ (fuel ind j : ℕ), cums.length - ind ≤ fuel →
      advance cums c ind = some j →
      j + 1 < cums.length ∧ c < cums.getD (j + 1) 0 ∧
        (cums.getD ind 0 ≤ c → cums.getD j 0 ≤ c) := by
  intro fuel
  induction fuel with
  | zero =>
    intro ind j hle hadv
    rw [advance, dif_neg (by omega)] at hadv
    exact absurd hadv (by simp)
  | succ fuel ih =>
    intro ind j hle hadv
    rw [advance] at hadv
    by_cases h1 : ind + 1 < cums.length
    · rw [dif_pos h1] at hadv
      by_cases h2 : cums.getD (ind + 1) 0 ≤ c
      · rw [if_pos h2] at hadv
        obtain ⟨a, b, cc⟩ := ih (ind + 1) j (by omega) hadv
        exact ⟨a, b, fun _ => cc h2⟩
      · rw [if_neg h2] at hadv
        have hj : ind = j := by simpa using hadv
        subst hj
        exact ⟨h1, lt_of_not_le h2, fun h => h⟩
    · rw [dif_neg h1] at hadv
      exact absurd hadv (by simp)

lemma resampleInterior_length (line : List Pt) (δ : ℝ) :
    ∀ (k i ind : ℕ) (l : List Pt),
      resampleInterior line δ k i ind = some l → l.length = k := by
  intro k
  induction k with
  | zero =>
    intro i ind l h
    rw [resampleInterior] at h
    cases h
    rfl
  | succ k ih =>
    intro i ind l h
    rw [resampleInterior] at h
    simp only [Option.bind_eq_bind] at h
    cases hadv : advance (cumlen line) ((i : ℝ) * δ) ind with
    | none =>
      rw [hadv] at h
      simp at h
    | some ind1 =>
      rw [hadv, Option.some_bind] at h
      cases hrest : resampleInterior line δ k (i + 1) ind1 with
      | none =>
        rw [hrest] at h
        simp at h
      | some rest =>
        rw [hrest, Option.some_bind] at h
        try dsimp only at h
        cases h
        simp only [List.length_cons, ih (i + 1) ind1 rest hrest]

lemma resample_line_length (line : List Pt) (n : ℕ) (out : List Pt)
    (h : resample_line line n = some out) : out.length = n + 1 := by
  rw [resample_line] at h
  by_cases hg : 2 ≤ line.length ∧ 1 ≤ n
  · rw [if_pos hg] at h
    cases hmi : resampleInterior line (arclen line / ((n : ℝ) + eps)) (n - 1) 1 0 with
    | none =>
      rw [hmi] at h
      simp at h
    | some mids =>
      rw [hmi] at h
      simp only [Option.map_some'] at h
      cases h
      have hl := resampleInterior_length line _ (n - 1) 1 0 mids hmi
      simp only [List.length_cons, List.length_append, List.length_nil, hl]
      omega
  · rw [if_neg hg] at h
    simp at h

lemma resampleInterior_mem_hull (line : List Pt) (δ : ℝ) (hδ : 0 ≤ δ) :
    ∀ (k i ind : ℕ) (l : List Pt),
      (cumlen line).getD ind 0 ≤ (i : ℝ) * δ →
      resampleInterior line δ k i ind = some l →
      ∀ q ∈ l, q ∈ convexHull ℝ {x : Pt | x ∈ line} := by
  intro k
  induction k with
  | zero =>
    intro i ind l hstart h
    rw [resampleInterior] at h
    cases h
    intro q hq
    simp at hq
  | succ k ih =>
    intro i ind l hstart h
    rw [resampleInterior] at h
    simp only [Option.bind_eq_bind] at h
    cases hadv : advance (cumlen line) ((i : ℝ) * δ) ind with
    | none =>
      rw [hadv] at h
      simp at h
    | some ind1 =>
      rw [hadv, Option.some_bind] at h
      cases hrest : resampleInterior line δ k (i + 1) ind1 with
      | none =>
        rw [hrest] at h
        simp at h
      | some rest =>
        rw [hrest, Option.some_bind] at h
        try dsimp only at h
        cases h
        obtain ⟨hjlt, hjc, hjmono⟩ :=
          advance_out (cumlen line) ((i : ℝ) * δ) (cumlen line).length ind ind1
            (by omega) hadv
        have hs1 : (cumlen line).getD ind1 0 ≤ (i : ℝ) * δ := hjmono hstart
        have hcl : (cumlen line).length = line.length - 1 + 1 := cumlen_length line
        have hi2 : ind1 + 1 < line.length := by omega
        have hi1 : ind1 < line.length := by omega
        have hik : ind1 < line.length - 1 := by omega
        have hseg : (cumlen line).getD (ind1 + 1) 0 =
            (cumlen line).getD ind1 0 + (lengthsOf line).getD ind1 0 :=
          cumlen_getD_succ line ind1 hik
        have hlenpos : 0 < (lengthsOf line).getD ind1 0 := by
          rw [hseg] at hjc
          linarith
        have hshift0 : 0 ≤ (i : ℝ) * δ - (cumlen line).getD ind1 0 := by linarith
        have hshiftlt : (i : ℝ) * δ - (cumlen line).getD ind1 0 <
            (lengthsOf line).getD ind1 0 := by
          rw [hseg] at hjc
          linarith
        have hr0 : 0 ≤ ((i : ℝ) * δ - (cumlen line).getD ind1 0) /
            (lengthsOf line).getD ind1 0 := div_nonneg hshift0 hlenpos.le
        have hr1 : ((i : ℝ) * δ - (cumlen line).getD ind1 0) /
            (lengthsOf line).getD ind1 0 ≤ 1 :=
          le_of_lt ((div_lt_one hlenpos).mpr hshiftlt)
        have hma : line.getD ind1 (0, 0) ∈ {x : Pt | x ∈ line} := by
          rw [getD_eq_getElem _ _ hi1]
          exact List.getElem_mem _
        have hmb : line.getD (ind1 + 1) (0, 0) ∈ {x : Pt | x ∈ line} := by
          rw [getD_eq_getElem _ _ hi2]
          exact List.getElem_mem _
        intro q hq
        rcases List.mem_cons.mp hq with hq1 | hq2
        · rw [hq1]
          rw [show line.getD ind1 (0, 0) +
              (((i : ℝ) * δ - (cumlen line).getD ind1 0) /
                  (lengthsOf line).getD ind1 0) •
                (line.getD (ind1 + 1) (0, 0) - line.getD ind1 (0, 0)) =
              (1 - ((i : ℝ) * δ - (cumlen line).getD ind1 0) /
                  (lengthsOf line).getD ind1 0) • line.getD ind1 (0, 0) +
                (((i : ℝ) * δ - (cumlen line).getD ind1 0) /
                  (lengthsOf line).getD ind1 0) • line.getD (ind1 + 1) (0, 0) by
            module]
          exact (convex_convexHull ℝ _) (subset_convexHull ℝ _ hma)
            (subset_convexHull ℝ _ hmb) (by linarith) hr0 (by ring)
        · refine ih (i + 1) ind1 rest ?_ hrest q hq2
          have hstep : (i : ℝ) * δ ≤ ((i + 1 : ℕ) : ℝ) * δ := by
            apply mul_le_mul_of_nonneg_right _ hδ
            push_cast
            linarith
          linarith

lemma resample_line_mem_hull (line : List Pt) (n : ℕ) (out : List Pt)
    (h : resample_line line n = some out) :
    ∀ q ∈ out, q ∈ convexHull ℝ {x : Pt | x ∈ line} := by
  rw [resample_line] at h
  by_cases hg : 2 ≤ line.length ∧ 1 ≤ n
  · rw [if_pos hg] at h
    cases hmi : resampleInterior line (arclen line / ((n : ℝ) + eps)) (n - 1) 1 0 with
    | none =>
      rw [hmi] at h
      simp at h
    | some mids =>
      rw [hmi] at h
      simp only [Option.map_some'] at h
      cases h
      have hδ : 0 ≤ arclen line / ((n : ℝ) + eps) := by
        apply div_nonneg (arclen_nonneg line)
        have he := eps_pos
        have hn : (0 : ℝ) ≤ (n : ℝ) := Nat.cast_nonneg n
        linarith
      have hmem := resampleInterior_mem_hull line _ hδ (n - 1) 1 0 mids
        (by rw [cumlen_getD_zero]; push_cast; simpa using hδ) hmi
      intro q hq
      rcases List.mem_cons.mp hq with hq1 | hq2
      · rw [hq1, headD_eq_getD, getD_eq_getElem _ _ (by omega)]
        exact subset_convexHull ℝ _ (List.getElem_mem _)
      · rcases List.mem_append.mp hq2 with hmid | hlastm
        · exact hmem q hmid
        · have hql : q = line.getLastD (0, 0) := by simpa using hlastm
          rw [hql, ← getD_last_eq _ _ (by
            intro h0
            rw [h0] at hg
            simp at hg)]
          rw [getD_eq_getElem _ _ (by omega)]
          exact subset_convexHull ℝ _ (List.getElem_mem _)
  · rw [if_neg hg] at h
    simp at h

lemma reorder_sideline_mem (thr : ℝ) (pts : List Pt) (q : Pt) :
    (q ∈ (reorder_poly_edge thr pts).2.2.1 ∨
      q ∈ (reorder_poly_edge thr pts).2.2.2) → q ∈ pts := by
  rw [reorder_poly_edge]
  try dsimp only
  intro hq
  split_ifs at hq <;>
  · try dsimp only at hq
    rcases hq with hq | hq <;>
      exact (List.mem_append.mp (List.mem_of_mem_drop
        (List.mem_of_mem_take hq))).elim id id

lemma alignAndTrim_mem (step : ℝ) (r1 r2 : List Pt) (q : Pt) :
    (q ∈ (alignAndTrim step r1 r2).1 → q ∈ r1) ∧
    (q ∈ (alignAndTrim step r1 r2).2.1 → q ∈ r2) ∧
    (q ∈ (alignAndTrim step r1 r2).2.2 →
      q ∈ List.zipWith (fun a b => ((2 : ℝ)⁻¹) • (a + b)) r1 r2.reverse) := by
  rw [alignAndTrim]
  try dsimp only
  split_ifs <;>
  · refine ⟨fun hq => ?_, fun hq => ?_, fun hq => ?_⟩ <;>
      first
        | exact hq
        | exact List.mem_reverse.mp hq
        | exact List.mem_reverse.mp (List.mem_reverse.mp hq)
        | exact List.mem_of_mem_drop (List.mem_of_mem_take hq)
        | exact List.mem_reverse.mp (List.mem_of_mem_drop (List.mem_of_mem_take hq))
        | exact List.mem_reverse.mp (List.mem_reverse.mp
            (List.mem_of_mem_drop (List.mem_of_mem_take hq)))

lemma alignAndTrim_mem_hull (step : ℝ) (r1 r2 : List Pt) (S : Set Pt)
    (h1 : ∀ q ∈ r1, q ∈ convexHull ℝ S) (h2 : ∀ q ∈ r2, q ∈ convexHull ℝ S) :
    (∀ q ∈ (alignAndTrim step r1 r2).1, q ∈ convexHull ℝ S) ∧
    (∀ q ∈ (alignAndTrim step r1 r2).2.1, q ∈ convexHull ℝ S) ∧
    (∀ q ∈ (alignAndTrim step r1 r2).2.2, q ∈ convexHull ℝ S) := by
  have hzip : ∀ q ∈ List.zipWith (fun a b => ((2 : ℝ)⁻¹) • (a + b)) r1 r2.reverse,
      q ∈ convexHull ℝ S := by
    intro q hq
    obtain ⟨i, hi, rfl⟩ := List.mem_iff_getElem.mp hq
    rw [List.getElem_zipWith, smul_add]
    exact (convex_convexHull ℝ S) (h1 _ (List.getElem_mem _))
      (h2 _ (List.mem_reverse.mp (List.getElem_mem _)))
      (by norm_num) (by norm_num) (by norm_num)
  refine ⟨fun q hq => ?_, fun q hq => ?_, fun q hq => ?_⟩
  · exact h1 q ((alignAndTrim_mem step r1 r2 q).1 hq)
  · exact h2 q ((alignAndTrim_mem step r1 r2 q).2.1 hq)
  · exact hzip q ((alignAndTrim_mem step r1 r2 q).2.2 hq)

lemma instanceLines_parts (thr step : ℝ) (poly : List ℝ) (prs : List Pt)
    (tbc : List Pt × List Pt × List Pt)
    (hpair : pairUp poly = some prs)
    (hinst : instanceLines thr step poly = some tbc) :
    ∃ o1 o2,
      resample_line (reorder_poly_edge thr (toRealPts (toIntPoly prs))).2.2.1
          (resamplePointNum
            (reorder_poly_edge thr (toRealPts (toIntPoly prs))).2.2.1
            (reorder_poly_edge thr (toRealPts (toIntPoly prs))).2.2.2 step).toNat =
        some o1 ∧
      resample_line (reorder_poly_edge thr (toRealPts (toIntPoly prs))).2.2.2
          (resamplePointNum
            (reorder_poly_edge thr (toRealPts (toIntPoly prs))).2.2.1
            (reorder_poly_edge thr (toRealPts (toIntPoly prs))).2.2.2 step).toNat =
        some o2 ∧
      tbc = alignAndTrim step o1 o2 := by
  rw [instanceLines] at hinst
  simp only [hpair, Option.bind_eq_bind, Option.some_bind] at hinst
  cases hrs : resample_sidelines
      (reorder_poly_edge thr (toRealPts (toIntPoly prs))).2.2.1
      (reorder_poly_edge thr (toRealPts (toIntPoly prs))).2.2.2 step with
  | none =>
    rw [hrs] at hinst
    simp at hinst
  | some rs =>
    rw [hrs, Option.some_bind] at hinst
    simp only [Option.pure_def, Option.some.injEq] at hinst
    rw [resample_sidelines] at hrs
    split_ifs at hrs with hg
    · simp only [Option.bind_eq_bind] at hrs
      cases h1 : resample_line
          (reorder_poly_edge thr (toRealPts (toIntPoly prs))).2.2.1
          (resamplePointNum
            (reorder_poly_edge thr (toRealPts (toIntPoly prs))).2.2.1
            (reorder_poly_edge thr (toRealPts (toIntPoly prs))).2.2.2 step).toNat with
      | none =>
        rw [h1] at hrs
        simp at hrs
      | some o1 =>
        rw [h1, Option.some_bind] at hrs
        cases h2 : resample_line
            (reorder_poly_edge thr (toRealPts (toIntPoly prs))).2.2.2
            (resamplePointNum
              (reorder_poly_edge thr (toRealPts (toIntPoly prs))).2.2.1
              (reorder_poly_edge thr (toRealPts (toIntPoly prs))).2.2.2 step).toNat with
        | none =>
          rw [h2] at hrs
          simp at hrs
        | some o2 =>
          rw [h2, Option.some_bind] at hrs
          simp only [Option.pure_def, Option.some.injEq] at hrs
          exact ⟨o1, o2, rfl, rfl, by rw [← hinst, ← hrs]⟩

/-- C7 (amended): every real (pre-`int32`-cast) corner of every centre-region
quad of an instance lies in the convex hull of the instance's int-cast vertex
set.  The centre region can therefore only escape the text region where the
polygon is non-convex, or through the sub-pixel rounding of the `int32` cast
of the quad corners; the claimed unconditional containment fails on concave
instances (see the counterexample). -/
theorem c7_amended (thr step shrink : ℝ) (poly : List ℝ) (prs : List Pt)
    (tbc : List Pt × List Pt × List Pt)
    (hs0 : 0 ≤ shrink) (hs1 : shrink ≤ 1)
    (hpair : pairUp poly = some prs)
    (hinst : instanceLines thr step poly = some tbc)
    (i : ℕ) (hi : i + 1 < tbc.2.2.length) :
    ∀ q ∈ realCornersOfSeg tbc.1 tbc.2.1 tbc.2.2 shrink i,
      q ∈ convexHull ℝ {x : Pt | x ∈ toRealPts (toIntPoly prs)} := by
  obtain ⟨o1, o2, h1, h2, htbc⟩ :=
    instanceLines_parts thr step poly prs tbc hpair hinst
  have hm1 : ∀ q ∈ o1,
      q ∈ convexHull ℝ {x : Pt | x ∈ toRealPts (toIntPoly prs)} :=
    fun q hq =>
      convexHull_mono (fun x hx => reorder_sideline_mem thr _ x (Or.inl hx))
        (resample_line_mem_hull _ _ _ h1 q hq)
  have hm2 : ∀ q ∈ o2,
      q ∈ convexHull ℝ {x : Pt | x ∈ toRealPts (toIntPoly prs)} :=
    fun q hq =>
      convexHull_mono (fun x hx => reorder_sideline_mem thr _ x (Or.inr hx))
        (resample_line_mem_hull _ _ _ h2 q hq)
  obtain ⟨ht, hb, hc⟩ := alignAndTrim_mem_hull step o1 o2 _ hm1 hm2
  have hlo : o1.length = o2.length := by
    rw [resample_line_length _ _ _ h1, resample_line_length _ _ _ h2]
  obtain ⟨hl1, hl2⟩ := alignAndTrim_lengths step o1 o2 hlo
  subst htbc
  have hcomb : ∀ (x y : Pt),
      x ∈ convexHull ℝ {x : Pt | x ∈ toRealPts (toIntPoly prs)} →
      y ∈ convexHull ℝ {x : Pt | x ∈ toRealPts (toIntPoly prs)} →
      x + shrink • (y - x) ∈
        convexHull ℝ {x : Pt | x ∈ toRealPts (toIntPoly prs)} := by
    intro x y hx hy
    rw [show x + shrink • (y - x) = (1 - shrink) • x + shrink • y by module]
    exact (convex_convexHull ℝ _) hx hy (by linarith) hs0 (by ring)
  have hcm : ∀ j, j < (alignAndTrim step o1 o2).2.2.length →
      (alignAndTrim step o1 o2).2.2.getD j (0, 0) ∈
        convexHull ℝ {x : Pt | x ∈ toRealPts (toIntPoly prs)} := by
    intro j hj
    rw [getD_eq_getElem _ _ hj]
    exact hc _ (List.getElem_mem _)
  have htm : ∀ j, j < (alignAndTrim step o1 o2).1.length →
      (alignAndTrim step o1 o2).1.getD j (0, 0) ∈
        convexHull ℝ {x : Pt | x ∈ toRealPts (toIntPoly prs)} := by
    intro j hj
    rw [getD_eq_getElem _ _ hj]
    exact ht _ (List.getElem_mem _)
  have hbm : ∀ j, j < (alignAndTrim step o1 o2).2.1.length →
      (alignAndTrim step o1 o2).2.1.getD j (0, 0) ∈
        convexHull ℝ {x : Pt | x ∈ toRealPts (toIntPoly prs)} := by
    intro j hj
    rw [getD_eq_getElem _ _ hj]
    exact hb _ (List.getElem_mem _)
  intro q hq
  rw [realCornersOfSeg] at hq
  try dsimp only at hq
  simp only [List.mem_cons, List.not_mem_nil, or_false] at hq
  rcases hq with rfl | rfl | rfl | rfl
  · exact hcomb _ _ (hcm i (by omega)) (htm i (by omega))
  · exact hcomb _ _ (hcm (i + 1) (by omega)) (htm (i + 1) (by omega))
  · exact hcomb _ _ (hcm (i + 1) (by omega)) (hbm (i + 1) (by omega))
  · exact hcomb _ _ (hcm i (by omega)) (hbm i (by omega))

/-- Witness for the amended C7 at the dart instance, segment 5. -/
theorem c7_witness :
    (0 : ℝ) ≤ 3 / 10 ∧ (3 / 10 : ℝ) ≤ 1 ∧
      pairUp dartPoly = some dartPts ∧
      instanceLines 2 4 dartPoly = some (dartT, dartB, dartC) ∧
      5 + 1 < ((dartT, dartB, dartC) : List Pt × List Pt × List Pt).2.2.length ∧
      ∀ q ∈ realCornersOfSeg dartT dartB dartC (3 / 10) 5,
        q ∈ convexHull ℝ {x : Pt | x ∈ toRealPts (toIntPoly dartPts)} :=
  ⟨by norm_num, by norm_num, pairUp_dart, dart_instanceLines,
    by simp only [dartC_length]; norm_num,
    c7_amended 2 4 (3 / 10) dartPoly dartPts (dartT, dartB, dartC)
      (by norm_num) (by norm_num) pairUp_dart dart_instanceLines 5
      (by simp only [dartC_length]; norm_num)⟩

end TextSnake
